import Mathlib

/-!
Verification of the pyth-xo updater core (src/updater.rs, src/config.rs,
src/utils.rs, src/pyth_api.rs) against its natural-language specification.

Modelling conventions, chosen to follow the source rather than the spec:
* Rust `f64` values (prices, deviation thresholds) are modelled as exact
  rationals (ℚ).  The decision logic is percentage-based comparison
  arithmetic; the spec itself notes "double precision is sufficient; no
  fixed-point requirement downstream".  NaN/infinity are outside the model.
* Rust machine integers keep their integer semantics: `u64` fields are ℕ
  (values below 2 ^ 64), and the source's `as i64` cast is modelled by an
  explicit wrapping function `u64_as_i64`.
* `DateTime<Utc>` values are modelled as whole Unix seconds (ℤ); chrono's
  `num_seconds` on differences is then exact.  `DateTime::from_timestamp`
  is total on chrono's representable range and the source pairs it with
  `unwrap_or_else(Utc::now)`, modelled by `fromTimestampOrNow`.
* Network effects (the Hermes price service, the RPC provider and the
  IPyth contract calls) are external collaborators; they are passed in as
  explicit oracle records (`NetworkEnv`, `CycleEnv`) whose fields return
  `Except Unit _` for the fallible calls.  The wire-level string-to-i64
  parse inside pyth_api::parse_price is the facade's concern (spec section 6
  specifies quotes as (mantissa, exponent)); snapshot entries therefore
  carry the parsed mantissa, and parse_price is the exact arithmetic
  mantissa * 10 ^ expo.
* `&mut self` mutation of the feed-state `HashMap` is explicit state
  passing over `StateMap := String → Option FeedState`.  Functions that can
  abort mid-way (the `?` operator) return the partially mutated map
  alongside the error, mirroring the fact that a `?`-return does not roll
  back earlier `get_mut` writes.
* Logging-only computation in the source (deviation display, stablecoin
  formatting, fee/USD cost display, `format_duration`) is omitted: it
  touches no state and no control flow.
-/

/-- src/config.rs FeedConfig.  `deviation_threshold : f64` as ℚ,
`heartbeat_seconds : u64` as ℕ. -/
structure FeedConfig where
  price_feed_id : String
  symbol : String
  deviation_threshold : ℚ
  heartbeat_seconds : ℕ
  networks : List String
deriving DecidableEq

/-- src/config.rs NetworkConfig. -/
structure NetworkConfig where
  name : String
  chain_id : ℕ
  rpc_url : String
  pyth_contract : String
  private_key : String
  native_feed_id : String
  block_explorer : String
deriving DecidableEq

/-- src/config.rs Config. -/
structure Config where
  networks : List NetworkConfig
  feeds : List FeedConfig
  pyth_hermes_url : String
  poll_interval_seconds : ℕ

/-- src/updater.rs FeedState: last confirmed price and timestamp for one
(feed, network) pair.  `last_on_chain_update : DateTime<Utc>` as Unix
seconds. -/
structure FeedState where
  last_price : ℚ
  last_on_chain_update : ℤ
deriving DecidableEq

/-- The in-memory feed-state HashMap keyed by the string state key. -/
abbrev StateMap := String → Option FeedState

/-- src/utils.rs state_key: format!("{}:{}", feed_id, network_name). -/
def state_key (feed_id network_name : String) : String :=
  feed_id ++ ":" ++ network_name

/-- HashMap::insert. -/
def insertState (m : StateMap) (k : String) (s : FeedState) : StateMap :=
  fun k2 => if k2 = k then some s else m k2

/-- The `if let Some(state) = feed_states.get_mut(&key)` write pattern:
overwrite when the key is present, do nothing when it is absent. -/
def updateState (m : StateMap) (k : String) (s : FeedState) : StateMap :=
  fun k2 => if k2 = k then (m k).map (fun _ => s) else m k2

/-- The inner loop of PythUpdater::new: insert one state per network name
declared for the feed. -/
def insertSentinels (s0 : FeedState) (fid : String) (m : StateMap)
    (l : List String) : StateMap :=
  l.foldl (fun m2 network_name => insertState m2 (state_key fid network_name) s0) m

/-- src/updater.rs PythUpdater::new: one sentinel FeedState
(last_price 0.0, last_on_chain_update = Utc::now()) inserted per declared
(feed, network) pair. -/
def PythUpdater.new (cfg : Config) (now : ℤ) : StateMap :=
  cfg.feeds.foldl
    (fun m feed =>
      insertSentinels { last_price := 0, last_on_chain_update := now }
        feed.price_feed_id m feed.networks)
    (fun _ => none)

/-- Rust `h as i64` on a `u64` value `h < 2 ^ 64`: two's-complement wrap. -/
def u64_as_i64 (h : ℕ) : ℤ :=
  if h < 2 ^ 63 then (h : ℤ) else (h : ℤ) - 2 ^ 64

/-- src/pyth_api.rs PriceData, with the decimal mantissa string already
parsed to its i64 value (the wire parse belongs to the price-service
facade, spec section 6). -/
structure PriceData where
  price : ℤ
  expo : ℤ
deriving DecidableEq

/-- src/pyth_api.rs ParsedPrice. -/
structure ParsedPrice where
  id : String
  price : PriceData
deriving DecidableEq

/-- src/pyth_api.rs parse_price: (price as f64) * 10f64.powi(expo), exact. -/
def parse_price (pd : ParsedPrice) : ℚ :=
  (pd.price.price : ℚ) * (10 : ℚ) ^ pd.price.expo

/-- Rust str::trim_start_matches("0x"): strip every leading "0x". -/
def trimLeading0x : List Char → List Char
  | '0' :: 'x' :: rest => trimLeading0x rest
  | l => l

def trim0x (s : String) : String := String.mk (trimLeading0x s.data)

/-- update_cycle lines 132-136: the HashMap from trimmed feed id to parsed
snapshot entry; a later duplicate id overwrites an earlier one. -/
def buildPrices (parsed : List ParsedPrice) : String → Option ParsedPrice :=
  parsed.foldl (fun m p => fun k => if k = trim0x p.id then some p else m k)
    (fun _ => none)

/-- src/updater.rs should_update_feed (lines 247-276).  The source returns
Result<bool> but never errors; `now` is the Utc::now() of the evaluation.
Rule 2 compares `time_since_update.num_seconds() >= heartbeat_seconds as i64`;
rule 3 compares `price_change_pct >= deviation_threshold`. -/
def should_update_feed (now : ℤ) (feed : FeedConfig) (state : FeedState)
    (current_price : ℚ) : Bool :=
  if state.last_price = 0 then
    true
  else if u64_as_i64 feed.heartbeat_seconds ≤ now - state.last_on_chain_update then
    true
  else if feed.deviation_threshold ≤
      |(current_price - state.last_price) / state.last_price| * 100 then
    true
  else
    false

/-- Errors that abort an update cycle (or the seeding pass) through `?`,
plus `missingState` for the `feed_states.get(..).unwrap()` on line 149
(a process panic in the source) and `badFeedIdHex` for
`hex::decode(feed_id)?` / the 32-byte `FixedBytes::from_slice` length
assertion. -/
inductive CycleError where
  | snapshotFetch
  | missingState
  | badFeedIdHex
  | badRpcUrl
  | badAddress
deriving DecidableEq

/-- i64::MAX. -/
def I64_MAX : ℕ := 9223372036854775807
/-- u64::MAX. -/
def U64_MAX : ℕ := 18446744073709551615
/-- Largest Unix second representable by chrono DateTime<Utc>
(262143-12-31T23:59:59). -/
def CHRONO_MAX_TS : ℤ := 8210298412799
/-- Smallest Unix second representable by chrono DateTime<Utc>
(-262144-01-01T00:00:00). -/
def CHRONO_MIN_TS : ℤ := -8334632851200

/-- chrono DateTime::from_timestamp(secs, 0).unwrap_or_else(Utc::now). -/
def fromTimestampOrNow (secs now : ℤ) : ℤ :=
  if CHRONO_MIN_TS ≤ secs ∧ secs ≤ CHRONO_MAX_TS then secs else now

/-- initialize_feed_states lines 91-93: U256 publish time via
`try_into().unwrap_or(0)` to i64, then from_timestamp. -/
def publishDatetimeInit (publishTime : ℕ) (now : ℤ) : ℤ :=
  fromTimestampOrNow (if publishTime ≤ I64_MAX then (publishTime : ℤ) else 0) now

/-- update_cycle lines 219-223: U256 publish time via
`try_into().unwrap_or(0)` to u64, then `as i64` (wrapping), then
from_timestamp. -/
def publishDatetimeRecon (publishTime : ℕ) (now : ℤ) : ℤ :=
  fromTimestampOrNow (u64_as_i64 (if publishTime ≤ U64_MAX then publishTime else 0)) now

/-- Result of IPyth.getPriceUnsafe: (int64 price, uint64 conf, int32 expo,
uint256 publishTime). -/
structure OnChainPrice where
  price : ℤ
  conf : ℕ
  expo : ℤ
  publishTime : ℕ
deriving DecidableEq

/-- Transaction receipt fields the updater reads. -/
structure Receipt where
  gas_used : ℕ
  block_number : Option ℕ
deriving DecidableEq

/-- Opaque binary update payload from fetch_price_update_data. -/
abbrev UpdateData := List String

/-- Per-network external collaborators: success of the pure config parses
(rpc url, contract address, signing key) and the fallible network calls.
`getPriceRaw` models IPyth.getPriceUnsafe, keyed by the feed id whose hex
decoding is the queried bytes32. -/
structure NetworkEnv where
  rpc_ok : Bool
  addr_ok : Bool
  key_ok : Bool
  fetch_update_data : List String → Except Unit UpdateData
  getUpdateFee : UpdateData → Except Unit ℕ
  gas_price : Except Unit ℕ
  send_tx : Except Unit Unit
  get_receipt : Except Unit Receipt
  getPriceRaw : String → Except Unit OnChainPrice

/-- Per-cycle external input: the fetch_prices result, the cycle's clock,
and each network's collaborators (keyed by network name). -/
structure CycleEnv where
  snapshot : Except Unit (List ParsedPrice)
  now : ℤ
  net : String → NetworkEnv

def boolStep (b : Bool) : Except Unit Unit :=
  if b then Except.ok () else Except.error ()

/-- src/updater.rs update_feeds_on_network (lines 278-338): fetch the
update payload, parse the signer key, build the provider (rpc url parse),
parse the contract address, quote the fee, query the gas price, send the
transaction, await the receipt.  Any failure aborts this network's
orchestration; the function never touches feed state.  The trailing
native-token price fetch is non-fatal (`unwrap_or(0.0)`) and display-only. -/
def update_feeds_on_network (env : NetworkEnv) (feed_ids : List String) :
    Except Unit Unit := do
  let upd ← env.fetch_update_data feed_ids
  boolStep env.key_ok
  boolStep env.rpc_ok
  boolStep env.addr_ok
  let _fee ← env.getUpdateFee upd
  let _gas ← env.gas_price
  env.send_tx
  let _receipt ← env.get_receipt
  pure ()

def isHexDigitChar (c : Char) : Bool :=
  c.isDigit || (decide (97 ≤ c.toNat) && decide (c.toNat ≤ 102)) ||
    (decide (65 ≤ c.toNat) && decide (c.toNat ≤ 70))

/-- hex::decode(feed_id) succeeding with exactly the 32 bytes demanded by
FixedBytes::<32>::from_slice: 64 hex digits. -/
def feedIdOk (s : String) : Bool :=
  decide (s.data.length = 64) && s.data.all isHexDigitChar

/-- One decision record of the cycle's decision phase. -/
structure Decision where
  feed_id : String
  network : String
  price : ℚ
  update : Bool
deriving DecidableEq

/-- update_cycle lines 146-194, one (network, feed) pair: skipped when the
network is not declared for the feed or the feed id is absent from the
snapshot map; otherwise the feed state is read (`unwrap`, line 149) and
should_update_feed is evaluated on the snapshot price. -/
def decide_pair (now : ℤ) (states : StateMap) (prices : String → Option ParsedPrice)
    (network : NetworkConfig) (feed : FeedConfig) : Except CycleError (Option Decision) :=
  if network.name ∈ feed.networks then
    match prices feed.price_feed_id with
    | none => Except.ok none
    | some pd =>
      match states (state_key feed.price_feed_id network.name) with
      | none => Except.error CycleError.missingState
      | some st =>
        Except.ok (some
          { feed_id := feed.price_feed_id
            network := network.name
            price := parse_price pd
            update := should_update_feed now feed st (parse_price pd) })
  else
    Except.ok none

def decide_feeds (now : ℤ) (states : StateMap) (prices : String → Option ParsedPrice)
    (network : NetworkConfig) : List FeedConfig → Except CycleError (List Decision)
  | [] => Except.ok []
  | feed :: rest =>
    match decide_pair now states prices network feed with
    | Except.error e => Except.error e
    | Except.ok d =>
      match decide_feeds now states prices network rest with
      | Except.error e => Except.error e
      | Except.ok ds =>
        match d with
        | some dec => Except.ok (dec :: ds)
        | none => Except.ok ds

/-- The decision phase of update_cycle (lines 140-196): networks outer,
feeds inner, every pair decided against the one snapshot map. -/
def decide_all (now : ℤ) (states : StateMap) (prices : String → Option ParsedPrice)
    (feeds : List FeedConfig) : List NetworkConfig → Except CycleError (List Decision)
  | [] => Except.ok []
  | nw :: rest =>
    match decide_feeds now states prices nw feeds with
    | Except.error e => Except.error e
    | Except.ok ds =>
      match decide_all now states prices feeds rest with
      | Except.error e => Except.error e
      | Except.ok rest2 => Except.ok (ds ++ rest2)

/-- updates_by_network (lines 138, 177-180): the feeds flagged for update
on a given network, in decision order. -/
def planOf (ds : List Decision) (network_name : String) : List String :=
  (ds.filter (fun d => d.update && d.network == network_name)).map
    (fun d => d.feed_id)

/-- update_cycle lines 211-238, one flagged feed: re-read the on-chain
price; on success commit the snapshot price `current_price` together with
the re-read publish time through the get_mut write; on read failure log
and skip.  `hex::decode(feed_id)?` aborts the cycle on a malformed id. -/
def reconcile_feed (now : ℤ) (env : NetworkEnv) (prices : String → Option ParsedPrice)
    (network_name : String) (states : StateMap) (feed_id : String) :
    Except (CycleError × StateMap) StateMap :=
  match prices feed_id with
  | none => Except.ok states
  | some pd =>
    if feedIdOk feed_id then
      match env.getPriceRaw feed_id with
      | Except.ok result =>
        Except.ok (updateState states (state_key feed_id network_name)
          { last_price := parse_price pd
            last_on_chain_update := publishDatetimeRecon result.publishTime now })
      | Except.error _ => Except.ok states
    else
      Except.error (CycleError.badFeedIdHex, states)

def reconcile_feeds (now : ℤ) (env : NetworkEnv) (prices : String → Option ParsedPrice)
    (network_name : String) : StateMap → List String → Except (CycleError × StateMap) StateMap
  | states, [] => Except.ok states
  | states, f :: rest =>
    match reconcile_feed now env prices network_name states f with
    | Except.ok s2 => reconcile_feeds now env prices network_name s2 rest
    | Except.error e => Except.error e

/-- update_cycle lines 198-242, one network: skipped when no feed was
flagged; a failed update_feeds_on_network is logged and leaves state
untouched; on success the provider is rebuilt (rpc url / address parses
behind `?`) and every flagged feed is reconciled. -/
def network_step (cenv : CycleEnv) (prices : String → Option ParsedPrice)
    (plan : String → List String) (states : StateMap) (network : NetworkConfig) :
    Except (CycleError × StateMap) StateMap :=
  if (plan network.name).isEmpty then Except.ok states
  else
    match update_feeds_on_network (cenv.net network.name) (plan network.name) with
    | Except.error _ => Except.ok states
    | Except.ok _ =>
      if (cenv.net network.name).rpc_ok then
        if (cenv.net network.name).addr_ok then
          reconcile_feeds cenv.now (cenv.net network.name) prices network.name states
            (plan network.name)
        else Except.error (CycleError.badAddress, states)
      else Except.error (CycleError.badRpcUrl, states)

def run_networks (cenv : CycleEnv) (prices : String → Option ParsedPrice)
    (plan : String → List String) : StateMap → List NetworkConfig →
    Except (CycleError × StateMap) StateMap
  | states, [] => Except.ok states
  | states, nw :: rest =>
    match network_step cenv prices plan states nw with
    | Except.ok s2 => run_networks cenv prices plan s2 rest
    | Except.error e => Except.error e

/-- src/updater.rs update_cycle (lines 120-245).  Returns the cycle's
outcome (the decision list on success, the aborting error otherwise)
together with the feed-state map as left by the cycle: an abort through
`?` keeps the mutations already made. -/
def update_cycle (cfg : Config) (states : StateMap) (cenv : CycleEnv) :
    Except CycleError (List Decision) × StateMap :=
  match cenv.snapshot with
  | Except.error _ => (Except.error CycleError.snapshotFetch, states)
  | Except.ok parsed =>
    let prices := buildPrices parsed
    match decide_all cenv.now states prices cfg.feeds cfg.networks with
    | Except.error e => (Except.error e, states)
    | Except.ok ds =>
      match run_networks cenv prices (planOf ds) states cfg.networks with
      | Except.ok s2 => (Except.ok ds, s2)
      | Except.error (e, s2) => (Except.error e, s2)

/-- src/updater.rs run (lines 55-61): each tick runs update_cycle, logs
an error if any, keeps the (possibly partially) mutated state, sleeps
poll_interval_seconds, repeats.  One list element per tick's external
input. -/
def run_steps (cfg : Config) : StateMap → List CycleEnv → StateMap
  | states, [] => states
  | states, e :: rest => run_steps cfg (update_cycle cfg states e).2 rest

/-- initialize_feed_states lines 76-113, one (network, feed) pair: skip
undeclared pairs; `hex::decode(price_feed_id)?` aborts seeding on a
malformed id; a successful getPriceUnsafe read seeds the pair's state
with mantissa * 10 ^ expo and the converted publish time; a failed read
is logged and skipped (fail-open). -/
def init_feed_pair (env : NetworkEnv) (now : ℤ) (network : NetworkConfig)
    (states : StateMap) (feed : FeedConfig) : Except (CycleError × StateMap) StateMap :=
  if network.name ∈ feed.networks then
    if feedIdOk feed.price_feed_id then
      match env.getPriceRaw feed.price_feed_id with
      | Except.ok result =>
        Except.ok (updateState states (state_key feed.price_feed_id network.name)
          { last_price := (result.price : ℚ) * (10 : ℚ) ^ result.expo
            last_on_chain_update := publishDatetimeInit result.publishTime now })
      | Except.error _ => Except.ok states
    else
      Except.error (CycleError.badFeedIdHex, states)
  else
    Except.ok states

def init_feeds_on_network (env : NetworkEnv) (now : ℤ) (network : NetworkConfig) :
    StateMap → List FeedConfig → Except (CycleError × StateMap) StateMap
  | states, [] => Except.ok states
  | states, feed :: rest =>
    match init_feed_pair env now network states feed with
    | Except.ok s2 => init_feeds_on_network env now network s2 rest
    | Except.error e => Except.error e

def init_networks (net : String → NetworkEnv) (now : ℤ) (feeds : List FeedConfig) :
    StateMap → List NetworkConfig → Except (CycleError × StateMap) StateMap
  | states, [] => Except.ok states
  | states, nw :: rest =>
    if (net nw.name).rpc_ok then
      if (net nw.name).addr_ok then
        match init_feeds_on_network (net nw.name) now nw states feeds with
        | Except.ok s2 => init_networks net now feeds s2 rest
        | Except.error e => Except.error e
      else Except.error (CycleError.badAddress, states)
    else Except.error (CycleError.badRpcUrl, states)

/-- src/updater.rs initialize_feed_states (lines 64-118): the one-time
startup seeding pass.  Like update_cycle, an abort through `?` keeps the
mutations already made; run() only logs the error. -/
def init_feed_states (cfg : Config) (net : String → NetworkEnv) (now : ℤ)
    (states : StateMap) : Except CycleError Unit × StateMap :=
  if cfg.networks.isEmpty then (Except.ok (), states)
  else
    match init_networks net now cfg.feeds states cfg.networks with
    | Except.ok s2 => (Except.ok (), s2)
    | Except.error (e, s2) => (Except.error e, s2)

/-! ## Helper lemmas about the decision engine -/

theorem u64_as_i64_of_lt {h : ℕ} (hh : h < 2 ^ 63) : u64_as_i64 h = (h : ℤ) := by
  unfold u64_as_i64
  rw [if_pos hh]

theorem should_update_feed_of_zero (now : ℤ) (feed : FeedConfig) (state : FeedState)
    (p : ℚ) (h : state.last_price = 0) : should_update_feed now feed state p = true := by
  simp [should_update_feed, h]

/-! ## C1: the decision rule order -/

/-- A sample feed configuration: 1% deviation threshold, 1h heartbeat. -/
def sampleFeed : FeedConfig :=
  { price_feed_id := "f", symbol := "S", deviation_threshold := 1,
    heartbeat_seconds := 3600, networks := ["n"] }

/-- C1 counterexample: the claim's rule order is stated over every feed
config, but for heartbeat_seconds = 2 ^ 63 the source's
`heartbeat_seconds as i64` cast wraps negative, so the heartbeat rule
fires even though none of the claim's three conditions holds. -/
theorem c1_counterexample :
    should_update_feed 0
      { price_feed_id := "f", symbol := "S", deviation_threshold := 1,
        heartbeat_seconds := 2 ^ 63, networks := ["n"] }
      { last_price := 100, last_on_chain_update := 0 } 100 = true ∧
    ¬ ((100 : ℚ) = 0 ∨
       ((2 ^ 63 : ℕ) : ℤ) ≤ 0 - 0 ∨
       (1 : ℚ) ≤ |((100 : ℚ) - 100) / 100| * 100) := by
  constructor
  · norm_num [should_update_feed, u64_as_i64]
  · push_neg
    norm_num

/-- C1 (amended): for every feed config whose heartbeat_seconds fits in
i64 (so that the `as i64` cast is value-preserving), should_update
returns the result of the first matching rule in priority order:
last_price == 0, heartbeat staleness, deviation ≥ threshold (a change
exactly equal to the threshold triggers), otherwise false. -/
theorem c1_should_update_rule_order (now : ℤ) (feed : FeedConfig) (state : FeedState)
    (p : ℚ) (hhb : feed.heartbeat_seconds < 2 ^ 63) :
    (should_update_feed now feed state p = true ↔
      (state.last_price = 0 ∨
       (feed.heartbeat_seconds : ℤ) ≤ now - state.last_on_chain_update ∨
       feed.deviation_threshold ≤ |(p - state.last_price) / state.last_price| * 100)) ∧
    (state.last_price ≠ 0 →
      now - state.last_on_chain_update < (feed.heartbeat_seconds : ℤ) →
      |(p - state.last_price) / state.last_price| * 100 = feed.deviation_threshold →
      should_update_feed now feed state p = true) ∧
    (state.last_price ≠ 0 →
      now - state.last_on_chain_update < (feed.heartbeat_seconds : ℤ) →
      |(p - state.last_price) / state.last_price| * 100 < feed.deviation_threshold →
      should_update_feed now feed state p = false) := by
  unfold should_update_feed
  rw [u64_as_i64_of_lt hhb]
  refine ⟨?_, ?_, ?_⟩
  · split_ifs with h1 h2 h3 <;> simp_all
  · intro h1 h2 h3
    rw [if_neg h1, if_neg (not_le.mpr h2), if_pos (le_of_eq h3.symm)]
  · intro h1 h2 h3
    rw [if_neg h1, if_neg (not_le.mpr h2), if_neg (not_le.mpr h3)]

/-- C1 witness: the amended rule-order theorem applied at a concrete
input (last price 100, fresh price 101, 1% threshold, inside the
heartbeat window). -/
theorem c1_witness :
    (should_update_feed 10 sampleFeed { last_price := 100, last_on_chain_update := 0 } 101 = true ↔
      (({ last_price := 100, last_on_chain_update := 0 } : FeedState).last_price = 0 ∨
       (sampleFeed.heartbeat_seconds : ℤ) ≤
         10 - ({ last_price := 100, last_on_chain_update := 0 } : FeedState).last_on_chain_update ∨
       sampleFeed.deviation_threshold ≤
         |(101 - ({ last_price := 100, last_on_chain_update := 0 } : FeedState).last_price) /
             ({ last_price := 100, last_on_chain_update := 0 } : FeedState).last_price| * 100)) ∧
    (({ last_price := 100, last_on_chain_update := 0 } : FeedState).last_price ≠ 0 →
      10 - ({ last_price := 100, last_on_chain_update := 0 } : FeedState).last_on_chain_update <
        (sampleFeed.heartbeat_seconds : ℤ) →
      |(101 - ({ last_price := 100, last_on_chain_update := 0 } : FeedState).last_price) /
          ({ last_price := 100, last_on_chain_update := 0 } : FeedState).last_price| * 100 =
        sampleFeed.deviation_threshold →
      should_update_feed 10 sampleFeed { last_price := 100, last_on_chain_update := 0 } 101 = true) ∧
    (({ last_price := 100, last_on_chain_update := 0 } : FeedState).last_price ≠ 0 →
      10 - ({ last_price := 100, last_on_chain_update := 0 } : FeedState).last_on_chain_update <
        (sampleFeed.heartbeat_seconds : ℤ) →
      |(101 - ({ last_price := 100, last_on_chain_update := 0 } : FeedState).last_price) /
          ({ last_price := 100, last_on_chain_update := 0 } : FeedState).last_price| * 100 <
        sampleFeed.deviation_threshold →
      should_update_feed 10 sampleFeed { last_price := 100, last_on_chain_update := 0 } 101 = false) :=
  c1_should_update_rule_order 10 sampleFeed { last_price := 100, last_on_chain_update := 0 } 101
    (by decide)

/-! ## C7: idempotence of the decision under unchanged price -/

/-- C7 counterexample: the claim allows a non-negative (hence zero)
deviation threshold, but with a zero threshold and an unchanged price
inside the heartbeat window the `>=` comparison fires (0% >= 0%), so
should_update returns true, not false. -/
theorem c7_counterexample :
    (0 : ℚ) ≤ 0 ∧
    should_update_feed 10
      { price_feed_id := "f", symbol := "S", deviation_threshold := 0,
        heartbeat_seconds := 3600, networks := ["n"] }
      { last_price := 100, last_on_chain_update := 0 } 100 = true := by
  constructor
  · exact le_refl 0
  · norm_num [should_update_feed, u64_as_i64]

/-- C7 (amended): for every feed whose deviation threshold is strictly
positive and whose heartbeat_seconds fits in i64, with a previously
observed price and an unchanged current price, should_update evaluates to
false at every instant inside the heartbeat window (so repeated cycles
keep returning false until the heartbeat elapses or the price moves). -/
theorem c7_should_update_idempotent (feed : FeedConfig) (st : FeedState) (now1 : ℤ)
    (hth : 0 < feed.deviation_threshold) (hhb : feed.heartbeat_seconds < 2 ^ 63)
    (hobs : st.last_price ≠ 0)
    (hwin : now1 - st.last_on_chain_update < (feed.heartbeat_seconds : ℤ)) :
    should_update_feed now1 feed st st.last_price = false := by
  unfold should_update_feed
  rw [u64_as_i64_of_lt hhb, if_neg hobs, if_neg (not_le.mpr hwin)]
  have h0 : |(st.last_price - st.last_price) / st.last_price| * 100 = 0 := by
    rw [sub_self, zero_div, abs_zero, zero_mul]
  rw [h0, if_neg (not_le.mpr hth)]

/-- C7 witness: the amended idempotence theorem applied at a concrete
input (1% threshold, unchanged price 100, 5 seconds into a 1h window). -/
theorem c7_witness :
    should_update_feed 10 sampleFeed { last_price := 100, last_on_chain_update := 5 }
      ({ last_price := 100, last_on_chain_update := 5 } : FeedState).last_price = false :=
  c7_should_update_idempotent sampleFeed { last_price := 100, last_on_chain_update := 5 } 10
    (by decide) (by decide) (by decide) (by decide)

/-! ## Frame infrastructure: the state map carried through aborts -/

/-- The state map carried by a possibly-aborted stateful pass (an abort
through `?` keeps the mutations made so far). -/
def errStates : Except (CycleError × StateMap) StateMap → StateMap
  | Except.ok s => s
  | Except.error (_, s) => s

theorem updateState_ne {m : StateMap} {k k2 : String} {s : FeedState}
    (h : k2 ≠ k) : updateState m k s k2 = m k2 := by
  simp [updateState, h]

theorem updateState_self (m : StateMap) (k : String) (s : FeedState) :
    updateState m k s k = (m k).map (fun _ => s) := by
  simp [updateState]

theorem updateState_isSome (m : StateMap) (k k2 : String) (s : FeedState) :
    (updateState m k s k2).isSome = (m k2).isSome := by
  unfold updateState
  by_cases h : k2 = k
  · rw [if_pos h, h]
    cases m k <;> rfl
  · rw [if_neg h]

theorem option_const_map_map (o : Option FeedState) (a b : FeedState) :
    ((o.map (fun _ => a)).map (fun _ => b)) = o.map (fun _ => b) := by
  cases o <;> rfl

/-! ## Injectivity of state keys with colon-free network names -/

theorem state_key_data (f n : String) :
    (state_key f n).data = f.data ++ ':' :: n.data := by
  show (f ++ ":" ++ n).data = _
  rw [String.data_append, String.data_append, List.append_assoc]
  rfl

theorem append_colon_inj {u v u' v' : List Char} (hu : ':' ∉ u) (hu' : ':' ∉ u')
    (h : u ++ ':' :: v = u' ++ ':' :: v') : u = u' ∧ v = v' := by
  induction u generalizing u' with
  | nil =>
    cases u' with
    | nil => simpa using h
    | cons c t =>
      rw [List.nil_append] at h
      have hc : c = ':' := by
        have := congrArg (fun l => l.head?) h
        simpa using this.symm
      exact absurd (hc ▸ List.mem_cons_self c t) hu'
  | cons c t ih =>
    cases u' with
    | nil =>
      rw [List.nil_append] at h
      have hc : c = ':' := by
        have := congrArg (fun l => l.head?) h
        simpa using this
      exact absurd (hc ▸ List.mem_cons_self c t) hu
    | cons c' t' =>
      simp only [List.cons_append, List.cons.injEq] at h
      obtain ⟨hc, ht⟩ := h
      have := ih (fun hm => hu (List.mem_cons_of_mem c hm))
        (fun hm => hu' (List.mem_cons_of_mem c' hm)) ht
      exact ⟨by rw [hc, this.1], this.2⟩

theorem state_key_inj {f n f' n' : String} (hn : ':' ∉ n.data) (hn' : ':' ∉ n'.data)
    (h : state_key f n = state_key f' n') : f = f' ∧ n = n' := by
  have hd : f.data ++ ':' :: n.data = f'.data ++ ':' :: n'.data := by
    rw [← state_key_data, ← state_key_data, h]
  have hrev : n.data.reverse ++ ':' :: f.data.reverse =
      n'.data.reverse ++ ':' :: f'.data.reverse := by
    have := congrArg List.reverse hd
    simpa [List.reverse_append, List.append_assoc] using this
  have hinj := append_colon_inj (by simpa using hn) (by simpa using hn') hrev
  have hfd : f.data = f'.data := by
    have := congrArg List.reverse hinj.2
    simpa using this
  have hnd : n.data = n'.data := by
    have := congrArg List.reverse hinj.1
    simpa using this
  exact ⟨congrArg String.mk hfd, congrArg String.mk hnd⟩

/-! ## Lemmas about the seeding pass -/

/-- The FeedState committed by a successful seeding read. -/
def seededState (r : OnChainPrice) (now : ℤ) : FeedState :=
  { last_price := (r.price : ℚ) * (10 : ℚ) ^ r.expo
    last_on_chain_update := publishDatetimeInit r.publishTime now }

theorem init_feed_pair_error {env : NetworkEnv} {now : ℤ} {network : NetworkConfig}
    {states : StateMap} {feed : FeedConfig} {e : CycleError × StateMap}
    (h : init_feed_pair env now network states feed = Except.error e) : e.2 = states := by
  unfold init_feed_pair at h
  split_ifs at h with h1 h2
  · cases hr : env.getPriceRaw feed.price_feed_id with
    | ok r => rw [hr] at h; exact absurd h (by simp)
    | error u => rw [hr] at h; exact absurd h (by simp)
  · injection h with h2
    rw [← h2]

theorem init_feed_pair_frame (env : NetworkEnv) (now : ℤ) (network : NetworkConfig)
    (states : StateMap) (feed : FeedConfig) {k : String}
    (hk : k ≠ state_key feed.price_feed_id network.name) :
    errStates (init_feed_pair env now network states feed) k = states k := by
  unfold init_feed_pair
  split_ifs with h1 h2
  · cases env.getPriceRaw feed.price_feed_id with
    | ok r => exact updateState_ne hk
    | error u => rfl
  · rfl
  · rfl

theorem init_feed_pair_isSome (env : NetworkEnv) (now : ℤ) (network : NetworkConfig)
    (states : StateMap) (feed : FeedConfig) (k : String) :
    (errStates (init_feed_pair env now network states feed) k).isSome = (states k).isSome := by
  unfold init_feed_pair
  split_ifs with h1 h2
  · cases env.getPriceRaw feed.price_feed_id with
    | ok r => exact updateState_isSome states _ k _
    | error u => rfl
  · rfl
  · rfl

theorem init_feed_pair_change (env : NetworkEnv) (now : ℤ) (network : NetworkConfig)
    (states : StateMap) (feed : FeedConfig) (k : String) :
    errStates (init_feed_pair env now network states feed) k = states k ∨
    (network.name ∈ feed.networks ∧ k = state_key feed.price_feed_id network.name ∧
      ∃ r, env.getPriceRaw feed.price_feed_id = Except.ok r ∧
        errStates (init_feed_pair env now network states feed) k =
          (states k).map (fun _ => seededState r now)) := by
  by_cases hk : k = state_key feed.price_feed_id network.name
  · unfold init_feed_pair
    split_ifs with h1 h2
    · cases hr : env.getPriceRaw feed.price_feed_id with
      | ok r =>
        refine Or.inr ⟨h1, hk, r, rfl, ?_⟩
        show updateState states _ _ k = _
        rw [hk, updateState_self]
        rfl
      | error u => exact Or.inl rfl
    · exact Or.inl rfl
    · exact Or.inl rfl
  · exact Or.inl (init_feed_pair_frame env now network states feed hk)

theorem init_feeds_frame (env : NetworkEnv) (now : ℤ) (network : NetworkConfig)
    (feeds : List FeedConfig) (k : String) :
    ∀ states : StateMap, (∀ feed ∈ feeds, k ≠ state_key feed.price_feed_id network.name) →
      errStates (init_feeds_on_network env now network states feeds) k = states k := by
  induction feeds with
  | nil => intro states _; rfl
  | cons feed rest ih =>
    intro states hk
    have hfp := init_feed_pair_frame env now network states feed
      (hk feed (List.mem_cons_self _ _))
    unfold init_feeds_on_network
    cases h : init_feed_pair env now network states feed with
    | ok s2 =>
      rw [h] at hfp
      rw [ih s2 (fun f hf => hk f (List.mem_cons_of_mem _ hf))]
      exact hfp
    | error e =>
      rw [h] at hfp
      exact hfp

theorem init_feeds_isSome (env : NetworkEnv) (now : ℤ) (network : NetworkConfig)
    (feeds : List FeedConfig) (k : String) :
    ∀ states : StateMap,
      (errStates (init_feeds_on_network env now network states feeds) k).isSome =
        (states k).isSome := by
  induction feeds with
  | nil => intro states; rfl
  | cons feed rest ih =>
    intro states
    have hfp := init_feed_pair_isSome env now network states feed k
    unfold init_feeds_on_network
    cases h : init_feed_pair env now network states feed with
    | ok s2 =>
      rw [h] at hfp
      rw [ih s2]
      exact hfp
    | error e =>
      rw [h] at hfp
      exact hfp

theorem init_feeds_change (env : NetworkEnv) (now : ℤ) (network : NetworkConfig)
    (feeds : List FeedConfig) (k : String) :
    ∀ states : StateMap,
      errStates (init_feeds_on_network env now network states feeds) k = states k ∨
      (∃ feed ∈ feeds, network.name ∈ feed.networks ∧
        k = state_key feed.price_feed_id network.name ∧
        ∃ r, env.getPriceRaw feed.price_feed_id = Except.ok r ∧
          errStates (init_feeds_on_network env now network states feeds) k =
            (states k).map (fun _ => seededState r now)) := by
  induction feeds with
  | nil => intro states; exact Or.inl rfl
  | cons feed rest ih =>
    intro states
    unfold init_feeds_on_network
    cases h : init_feed_pair env now network states feed with
    | error e =>
      have := init_feed_pair_error h
      exact Or.inl (by show e.2 k = states k; rw [this])
    | ok s2 =>
      have hpair := init_feed_pair_change env now network states feed k
      rw [h] at hpair
      simp only [errStates] at hpair
      have hrest := ih s2
      rcases hrest with hu | ⟨feed2, hf2, hm2, hk2, r2, hr2, hv2⟩
      · rcases hpair with hu1 | ⟨hm1, hk1, r1, hr1, hv1⟩
        · exact Or.inl (by rw [hu, hu1])
        · exact Or.inr ⟨feed, List.mem_cons_self _ _, hm1, hk1, r1, hr1, by rw [hu, hv1]⟩
      · rcases hpair with hu1 | ⟨hm1, hk1, r1, hr1, hv1⟩
        · exact Or.inr ⟨feed2, List.mem_cons_of_mem _ hf2, hm2, hk2, r2, hr2,
            by rw [hv2, hu1]⟩
        · exact Or.inr ⟨feed2, List.mem_cons_of_mem _ hf2, hm2, hk2, r2, hr2,
            by rw [hv2, hv1, option_const_map_map]⟩

theorem init_networks_frame (net : String → NetworkEnv) (now : ℤ)
    (feeds : List FeedConfig) (nets : List NetworkConfig) (k : String) :
    ∀ states : StateMap,
      (∀ nw ∈ nets, ∀ feed ∈ feeds, k ≠ state_key feed.price_feed_id nw.name) →
      errStates (init_networks net now feeds states nets) k = states k := by
  induction nets with
  | nil => intro states _; rfl
  | cons nw rest ih =>
    intro states hk
    unfold init_networks
    split_ifs with h1 h2
    · have hfs := init_feeds_frame (net nw.name) now nw feeds k states
        (fun feed hf => hk nw (List.mem_cons_self _ _) feed hf)
      cases h : init_feeds_on_network (net nw.name) now nw states feeds with
      | ok s2 =>
        rw [h] at hfs
        rw [ih s2 (fun m hm feed hf => hk m (List.mem_cons_of_mem _ hm) feed hf)]
        exact hfs
      | error e =>
        rw [h] at hfs
        exact hfs
    · rfl
    · rfl

theorem init_networks_isSome (net : String → NetworkEnv) (now : ℤ)
    (feeds : List FeedConfig) (nets : List NetworkConfig) (k : String) :
    ∀ states : StateMap,
      (errStates (init_networks net now feeds states nets) k).isSome = (states k).isSome := by
  induction nets with
  | nil => intro states; rfl
  | cons nw rest ih =>
    intro states
    unfold init_networks
    split_ifs with h1 h2
    · have hfs := init_feeds_isSome (net nw.name) now nw feeds k states
      cases h : init_feeds_on_network (net nw.name) now nw states feeds with
      | ok s2 =>
        rw [h] at hfs
        rw [ih s2]
        exact hfs
      | error e =>
        rw [h] at hfs
        exact hfs
    · rfl
    · rfl

theorem init_networks_change (net : String → NetworkEnv) (now : ℤ)
    (feeds : List FeedConfig) (nets : List NetworkConfig) (k : String) :
    ∀ states : StateMap,
      errStates (init_networks net now feeds states nets) k = states k ∨
      (∃ nw ∈ nets, ∃ feed ∈ feeds, nw.name ∈ feed.networks ∧
        k = state_key feed.price_feed_id nw.name ∧
        ∃ r, (net nw.name).getPriceRaw feed.price_feed_id = Except.ok r ∧
          errStates (init_networks net now feeds states nets) k =
            (states k).map (fun _ => seededState r now)) := by
  induction nets with
  | nil => intro states; exact Or.inl rfl
  | cons nw rest ih =>
    intro states
    unfold init_networks
    split_ifs with h1 h2
    · cases h : init_feeds_on_network (net nw.name) now nw states feeds with
      | error e =>
        have hfs := init_feeds_change (net nw.name) now nw feeds k states
        rw [h] at hfs
        rcases hfs with hu | ⟨feed, hf, hm, hk, r, hr, hv⟩
        · exact Or.inl hu
        · exact Or.inr ⟨nw, List.mem_cons_self _ _, feed, hf, hm, hk, r, hr, hv⟩
      | ok s2 =>
        have hfs := init_feeds_change (net nw.name) now nw feeds k states
        rw [h] at hfs
        simp only [errStates] at hfs
        rcases ih s2 with hu2 | ⟨nw2, hn2, feed2, hf2, hm2, hk2, r2, hr2, hv2⟩
        · rcases hfs with hu1 | ⟨feed1, hf1, hm1, hk1, r1, hr1, hv1⟩
          · exact Or.inl (by rw [hu2, hu1])
          · exact Or.inr ⟨nw, List.mem_cons_self _ _, feed1, hf1, hm1, hk1, r1, hr1,
              by rw [hu2, hv1]⟩
        · rcases hfs with hu1 | ⟨feed1, hf1, hm1, hk1, r1, hr1, hv1⟩
          · exact Or.inr ⟨nw2, List.mem_cons_of_mem _ hn2, feed2, hf2, hm2, hk2, r2, hr2,
              by rw [hv2, hu1]⟩
          · exact Or.inr ⟨nw2, List.mem_cons_of_mem _ hn2, feed2, hf2, hm2, hk2, r2, hr2,
              by rw [hv2, hv1, option_const_map_map]⟩
    · exact Or.inl rfl
    · exact Or.inl rfl

theorem init_feed_states_eq (cfg : Config) (net : String → NetworkEnv) (now : ℤ)
    (states : StateMap) :
    (init_feed_states cfg net now states).2 =
      errStates (init_networks net now cfg.feeds states cfg.networks) := by
  unfold init_feed_states
  split_ifs with h
  · cases hcn : cfg.networks with
    | nil => rfl
    | cons a l => rw [hcn] at h; exact absurd h (by simp)
  · cases init_networks net now cfg.feeds states cfg.networks with
    | ok s2 => rfl
    | error e => cases e; rfl

theorem init_feed_pair_ok (env : NetworkEnv) (now : ℤ) (network : NetworkConfig)
    (states : StateMap) (feed : FeedConfig) (hhex : feedIdOk feed.price_feed_id = true) :
    ∃ s2, init_feed_pair env now network states feed = Except.ok s2 := by
  unfold init_feed_pair
  split_ifs with h1
  · cases env.getPriceRaw feed.price_feed_id with
    | ok r => exact ⟨_, rfl⟩
    | error u => exact ⟨_, rfl⟩
  · exact ⟨_, rfl⟩

theorem init_feeds_ok (env : NetworkEnv) (now : ℤ) (network : NetworkConfig)
    (feeds : List FeedConfig) (hhex : ∀ feed ∈ feeds, feedIdOk feed.price_feed_id = true) :
    ∀ states : StateMap, ∃ s2, init_feeds_on_network env now network states feeds = Except.ok s2 := by
  induction feeds with
  | nil => intro states; exact ⟨states, rfl⟩
  | cons feed rest ih =>
    intro states
    obtain ⟨s2, hs2⟩ := init_feed_pair_ok env now network states feed
      (hhex feed (List.mem_cons_self _ _))
    obtain ⟨s3, hs3⟩ := ih (fun f hf => hhex f (List.mem_cons_of_mem _ hf)) s2
    refine ⟨s3, ?_⟩
    unfold init_feeds_on_network
    rw [hs2]
    exact hs3

theorem init_networks_ok (net : String → NetworkEnv) (now : ℤ)
    (feeds : List FeedConfig) (nets : List NetworkConfig)
    (hok : ∀ nw ∈ nets, (net nw.name).rpc_ok = true ∧ (net nw.name).addr_ok = true)
    (hhex : ∀ feed ∈ feeds, feedIdOk feed.price_feed_id = true) :
    ∀ states : StateMap, ∃ s2, init_networks net now feeds states nets = Except.ok s2 := by
  induction nets with
  | nil => intro states; exact ⟨states, rfl⟩
  | cons nw rest ih =>
    intro states
    obtain ⟨s2, hs2⟩ := init_feeds_ok (net nw.name) now nw feeds hhex states
    obtain ⟨s3, hs3⟩ := ih (fun m hm => hok m (List.mem_cons_of_mem _ hm)) s2
    refine ⟨s3, ?_⟩
    unfold init_networks
    rw [if_pos (hok nw (List.mem_cons_self _ _)).1, if_pos (hok nw (List.mem_cons_self _ _)).2,
      hs2]
    exact hs3

/-! ## Lemmas about PythUpdater::new -/

theorem insertState_isSome_mono {m : StateMap} {k : String} {s : FeedState} {k2 : String}
    (h : (m k2).isSome = true) : (insertState m k s k2).isSome = true := by
  unfold insertState
  split_ifs
  · rfl
  · exact h

theorem insertSentinels_mono (s0 : FeedState) (fid : String) (l : List String) :
    ∀ (m : StateMap) (k2 : String), (m k2).isSome = true →
      (insertSentinels s0 fid m l k2).isSome = true := by
  induction l with
  | nil => intro m k2 h; exact h
  | cons a t ih =>
    intro m k2 h
    unfold insertSentinels
    rw [List.foldl_cons]
    exact ih _ _ (insertState_isSome_mono h)

theorem insertSentinels_mem (s0 : FeedState) (fid : String) (l : List String) :
    ∀ (m : StateMap) (nm : String), nm ∈ l →
      (insertSentinels s0 fid m l (state_key fid nm)).isSome = true := by
  induction l with
  | nil => intro m nm h; exact absurd h (List.not_mem_nil _)
  | cons a t ih =>
    intro m nm h
    unfold insertSentinels
    rw [List.foldl_cons]
    rcases List.mem_cons.mp h with rfl | ht
    · exact insertSentinels_mono s0 fid t _ _ (by unfold insertState; rw [if_pos rfl]; rfl)
    · exact ih _ _ ht

theorem new_fold_mono (now : ℤ) (feeds : List FeedConfig) :
    ∀ (m : StateMap) (k2 : String), (m k2).isSome = true →
      ((feeds.foldl
        (fun m feed =>
          insertSentinels { last_price := 0, last_on_chain_update := now }
            feed.price_feed_id m feed.networks) m) k2).isSome = true := by
  induction feeds with
  | nil => intro m k2 h; exact h
  | cons a t ih =>
    intro m k2 h
    rw [List.foldl_cons]
    exact ih _ _ (insertSentinels_mono _ _ _ _ _ h)

theorem new_fold_declared (now : ℤ) (feeds : List FeedConfig) :
    ∀ (m : StateMap) {feed : FeedConfig} {nm : String}, feed ∈ feeds → nm ∈ feed.networks →
      ((feeds.foldl
        (fun m feed =>
          insertSentinels { last_price := 0, last_on_chain_update := now }
            feed.price_feed_id m feed.networks) m)
        (state_key feed.price_feed_id nm)).isSome = true := by
  induction feeds with
  | nil => intro m feed nm hf _; exact absurd hf (List.not_mem_nil _)
  | cons a t ih =>
    intro m feed nm hf hn
    rw [List.foldl_cons]
    rcases List.mem_cons.mp hf with rfl | ht
    · exact new_fold_mono now t _ _ (insertSentinels_mem _ _ _ _ _ hn)
    · exact ih _ ht hn

/-- Construction: PythUpdater::new creates an entry for every declared
(feed, network) pair. -/
theorem new_declared (cfg : Config) (now : ℤ) {feed : FeedConfig} {nm : String}
    (hf : feed ∈ cfg.feeds) (hn : nm ∈ feed.networks) :
    ((PythUpdater.new cfg now) (state_key feed.price_feed_id nm)).isSome = true := by
  unfold PythUpdater.new
  exact new_fold_declared now cfg.feeds _ hf hn

theorem insertSentinels_values (s0 : FeedState) (fid : String) (l : List String) :
    ∀ (m : StateMap) (k : String),
      (∀ k2, m k2 = none ∨ m k2 = some s0) →
      (insertSentinels s0 fid m l k = none ∨ insertSentinels s0 fid m l k = some s0) := by
  induction l with
  | nil => intro m k h; exact h k
  | cons a t ih =>
    intro m k h
    unfold insertSentinels
    rw [List.foldl_cons]
    refine ih _ _ (fun k2 => ?_)
    unfold insertState
    split_ifs
    · exact Or.inr rfl
    · exact h k2

/-- Construction: every entry of PythUpdater::new holds the sentinel
state (last_price 0, timestamp = construction time). -/
theorem new_values (cfg : Config) (now : ℤ) (k : String) :
    PythUpdater.new cfg now k = none ∨
    PythUpdater.new cfg now k = some { last_price := 0, last_on_chain_update := now } := by
  unfold PythUpdater.new
  generalize cfg.feeds = fs
  have base : ∀ k2, (fun _ => none : StateMap) k2 = none ∨
      (fun _ => none : StateMap) k2 =
        some { last_price := 0, last_on_chain_update := now } :=
    fun _ => Or.inl rfl
  revert base
  generalize (fun _ => none : StateMap) = m
  intro base
  induction fs generalizing m with
  | nil => exact base k
  | cons a t ih =>
    rw [List.foldl_cons]
    exact ih _ (fun k2 => insertSentinels_values _ _ _ _ _ base)

theorem new_declared_value (cfg : Config) (now : ℤ) {feed : FeedConfig} {nm : String}
    (hf : feed ∈ cfg.feeds) (hn : nm ∈ feed.networks) :
    PythUpdater.new cfg now (state_key feed.price_feed_id nm) =
      some { last_price := 0, last_on_chain_update := now } := by
  rcases new_values cfg now (state_key feed.price_feed_id nm) with h | h
  · have hd := new_declared cfg now hf hn
    rw [h] at hd
    exact absurd hd (by simp)
  · exact h

theorem init_feed_states_ok (cfg : Config) (net : String → NetworkEnv) (now : ℤ)
    (states : StateMap)
    (hok : ∀ nw ∈ cfg.networks, (net nw.name).rpc_ok = true ∧ (net nw.name).addr_ok = true)
    (hhex : ∀ feed ∈ cfg.feeds, feedIdOk feed.price_feed_id = true) :
    (init_feed_states cfg net now states).1 = Except.ok () := by
  unfold init_feed_states
  split_ifs with h
  · rfl
  · obtain ⟨s2, hs2⟩ := init_networks_ok net now cfg.feeds cfg.networks hok hhex states
    rw [hs2]

/-! ## C6: seeding read failure is fail-open -/

/-- C6: if the on-chain read for a declared (feed, network) pair fails
during startup seeding, the pair's entry keeps the 0.0 sentinel, the
first cycle's decision is forced to true regardless of price, heartbeat
or deviation, and (when the per-network parses succeed and feed ids are
well-formed) the seeding pass reports success rather than propagating the
read error. -/
theorem c6_seed_read_failure_fail_open (cfg : Config) (net : String → NetworkEnv)
    (now0 : ℤ) {feed : FeedConfig} {nw : NetworkConfig}
    (hf : feed ∈ cfg.feeds) (hw : nw ∈ cfg.networks) (hn : nw.name ∈ feed.networks)
    (hcolon : ∀ m ∈ cfg.networks, ':' ∉ m.name.data)
    (hfail : (net nw.name).getPriceRaw feed.price_feed_id = Except.error ()) :
    (init_feed_states cfg net now0 (PythUpdater.new cfg now0)).2
        (state_key feed.price_feed_id nw.name) =
      some { last_price := 0, last_on_chain_update := now0 } ∧
    (∀ (fc : FeedConfig) (p : ℚ) (now1 : ℤ),
      should_update_feed now1 fc { last_price := 0, last_on_chain_update := now0 } p = true) ∧
    ((∀ m ∈ cfg.networks, (net m.name).rpc_ok = true ∧ (net m.name).addr_ok = true) →
      (∀ f2 ∈ cfg.feeds, feedIdOk f2.price_feed_id = true) →
      (init_feed_states cfg net now0 (PythUpdater.new cfg now0)).1 = Except.ok ()) := by
  refine ⟨?_, fun fc p now1 => should_update_feed_of_zero now1 fc _ p rfl,
    fun h1 h2 => init_feed_states_ok cfg net now0 _ h1 h2⟩
  rw [init_feed_states_eq]
  rcases init_networks_change net now0 cfg.feeds cfg.networks
      (state_key feed.price_feed_id nw.name) (PythUpdater.new cfg now0) with hu |
      ⟨m, hm, feed2, hf2, hm2, hkey, r2, hr2, hv⟩
  · rw [hu]
    exact new_declared_value cfg now0 hf hn
  · obtain ⟨hfid, hname⟩ := state_key_inj (hcolon nw hw) (hcolon m hm) hkey
    rw [hname, hfid] at hfail
    rw [hfail] at hr2
    exact absurd hr2 (by simp)

/-! ## C10: a zero on-chain price seeds the sentinel -/

/-- C10: if the seeding read for a declared (feed, network) pair succeeds
with mantissa 0, the seeded last_price is 0 * 10 ^ expo = 0, i.e. exactly
the never-observed sentinel, and the decision engine returns true for any
state carrying last_price 0 — a legitimately zero on-chain price is
indistinguishable from absent state at the decision interface. -/
theorem c10_zero_price_seeds_sentinel (cfg : Config) (net : String → NetworkEnv)
    (now0 : ℤ) {feed : FeedConfig} {nw : NetworkConfig}
    (hf : feed ∈ cfg.feeds) (hw : nw ∈ cfg.networks) (hn : nw.name ∈ feed.networks)
    (hcolon : ∀ m ∈ cfg.networks, ':' ∉ m.name.data)
    {r : OnChainPrice}
    (hread : (net nw.name).getPriceRaw feed.price_feed_id = Except.ok r)
    (hzero : r.price = 0) :
    (∃ ts, (init_feed_states cfg net now0 (PythUpdater.new cfg now0)).2
        (state_key feed.price_feed_id nw.name) =
      some { last_price := 0, last_on_chain_update := ts }) ∧
    (∀ (fc : FeedConfig) (st : FeedState) (p : ℚ) (now1 : ℤ),
      st.last_price = 0 → should_update_feed now1 fc st p = true) := by
  refine ⟨?_, fun fc st p now1 h => should_update_feed_of_zero now1 fc st p h⟩
  rw [init_feed_states_eq]
  rcases init_networks_change net now0 cfg.feeds cfg.networks
      (state_key feed.price_feed_id nw.name) (PythUpdater.new cfg now0) with hu |
      ⟨m, hm, feed2, hf2, hm2, hkey, r2, hr2, hv⟩
  · refine ⟨now0, ?_⟩
    rw [hu]
    exact new_declared_value cfg now0 hf hn
  · obtain ⟨hfid, hname⟩ := state_key_inj (hcolon nw hw) (hcolon m hm) hkey
    rw [hname, hfid] at hread
    rw [hread] at hr2
    injection hr2 with hr2e
    refine ⟨publishDatetimeInit r.publishTime now0, ?_⟩
    rw [hv, new_declared_value cfg now0 hf hn]
    have hs : seededState r2 now0 =
        { last_price := 0, last_on_chain_update := publishDatetimeInit r.publishTime now0 } := by
      rw [← hr2e]
      unfold seededState
      rw [hzero]
      simp
    rw [Option.map_some']
    rw [hs]

/-! ## Concrete scenario used by witnesses and counterexamples -/

/-- A well-formed 64-hex-digit feed id. -/
def feedId64 : String :=
  "aaaaaaaaaaaaaaaaaaaaaaaaaaaaaaaaaaaaaaaaaaaaaaaaaaaaaaaaaaaaaaaa"

def net1 : NetworkConfig :=
  { name := "net", chain_id := 1, rpc_url := "http", pyth_contract := "0xc",
    private_key := "k", native_feed_id := "ff", block_explorer := "exp" }

def feed1 : FeedConfig :=
  { price_feed_id := feedId64, symbol := "SYM", deviation_threshold := 1,
    heartbeat_seconds := 3600, networks := ["net"] }

def cfg1 : Config :=
  { networks := [net1], feeds := [feed1], pyth_hermes_url := "h",
    poll_interval_seconds := 10 }

/-- All calls succeed; the on-chain read reports price 200e0 published at
second 1000. -/
def okEnv : NetworkEnv :=
  { rpc_ok := true, addr_ok := true, key_ok := true
    fetch_update_data := fun _ => Except.ok ["deadbeef"]
    getUpdateFee := fun _ => Except.ok 1
    gas_price := Except.ok 1
    send_tx := Except.ok ()
    get_receipt := Except.ok { gas_used := 1, block_number := none }
    getPriceRaw := fun _ => Except.ok { price := 200, conf := 0, expo := 0, publishTime := 1000 } }

/-- Like okEnv but every on-chain price read fails. -/
def failReadEnv : NetworkEnv :=
  { okEnv with getPriceRaw := fun _ => Except.error () }

/-- Like okEnv but the on-chain read reports mantissa 0 (price 0e-8). -/
def zeroReadEnv : NetworkEnv :=
  { okEnv with
    getPriceRaw := fun _ =>
      Except.ok { price := 0, conf := 0, expo := -8, publishTime := 1000 } }

/-- C6 witness: the fail-open seeding theorem applied to the one-feed
one-network configuration whose read fails. -/
theorem c6_witness :
    (init_feed_states cfg1 (fun _ => failReadEnv) 0 (PythUpdater.new cfg1 0)).2
        (state_key feed1.price_feed_id net1.name) =
      some { last_price := 0, last_on_chain_update := 0 } ∧
    (∀ (fc : FeedConfig) (p : ℚ) (now1 : ℤ),
      should_update_feed now1 fc { last_price := 0, last_on_chain_update := 0 } p = true) ∧
    ((∀ m ∈ cfg1.networks,
        ((fun _ => failReadEnv : String → NetworkEnv) m.name).rpc_ok = true ∧
        ((fun _ => failReadEnv : String → NetworkEnv) m.name).addr_ok = true) →
      (∀ f2 ∈ cfg1.feeds, feedIdOk f2.price_feed_id = true) →
      (init_feed_states cfg1 (fun _ => failReadEnv) 0 (PythUpdater.new cfg1 0)).1 =
        Except.ok ()) :=
  c6_seed_read_failure_fail_open cfg1 (fun _ => failReadEnv) 0
    (List.mem_cons_self _ _) (List.mem_cons_self _ _) (List.mem_cons_self _ _)
    (by decide) rfl

/-- C10 witness: the zero-mantissa seeding theorem applied to the
one-feed one-network configuration whose read returns price 0e-8. -/
theorem c10_witness :
    (∃ ts, (init_feed_states cfg1 (fun _ => zeroReadEnv) 0 (PythUpdater.new cfg1 0)).2
        (state_key feed1.price_feed_id net1.name) =
      some { last_price := 0, last_on_chain_update := ts }) ∧
    (∀ (fc : FeedConfig) (st : FeedState) (p : ℚ) (now1 : ℤ),
      st.last_price = 0 → should_update_feed now1 fc st p = true) :=
  c10_zero_price_seeds_sentinel cfg1 (fun _ => zeroReadEnv) 0
    (List.mem_cons_self _ _) (List.mem_cons_self _ _) (List.mem_cons_self _ _)
    (by decide) rfl rfl

/-! ## Frame and evidence lemmas for the reconciliation phase -/

theorem reconcile_feed_error {now : ℤ} {env : NetworkEnv}
    {prices : String → Option ParsedPrice} {nm : String} {states : StateMap}
    {fid : String} {e : CycleError × StateMap}
    (h : reconcile_feed now env prices nm states fid = Except.error e) :
    e.1 = CycleError.badFeedIdHex ∧ e.2 = states := by
  unfold reconcile_feed at h
  cases hp : prices fid with
  | none => rw [hp] at h; exact absurd h (by simp)
  | some pd =>
    rw [hp] at h
    split_ifs at h with h1
    · cases hr : env.getPriceRaw fid with
      | ok r => rw [hr] at h; exact absurd h (by simp)
      | error u => rw [hr] at h; exact absurd h (by simp)
    · injection h with h2
      rw [← h2]
      exact ⟨rfl, rfl⟩

theorem reconcile_feed_frame (now : ℤ) (env : NetworkEnv)
    (prices : String → Option ParsedPrice) (nm : String) (states : StateMap)
    (fid : String) {k : String} (hk : k ≠ state_key fid nm) :
    errStates (reconcile_feed now env prices nm states fid) k = states k := by
  unfold reconcile_feed
  cases prices fid with
  | none => rfl
  | some pd =>
    split_ifs with h1
    · cases env.getPriceRaw fid with
      | ok r => exact updateState_ne hk
      | error u => rfl
    · rfl

theorem reconcile_feed_isSome (now : ℤ) (env : NetworkEnv)
    (prices : String → Option ParsedPrice) (nm : String) (states : StateMap)
    (fid k : String) :
    (errStates (reconcile_feed now env prices nm states fid) k).isSome =
      (states k).isSome := by
  unfold reconcile_feed
  cases prices fid with
  | none => rfl
  | some pd =>
    split_ifs with h1
    · cases env.getPriceRaw fid with
      | ok r => exact updateState_isSome states _ k _
      | error u => rfl
    · rfl

theorem reconcile_feed_change (now : ℤ) (env : NetworkEnv)
    (prices : String → Option ParsedPrice) (nm : String) (states : StateMap)
    (fid k : String) :
    errStates (reconcile_feed now env prices nm states fid) k = states k ∨
    (k = state_key fid nm ∧ ∃ r, env.getPriceRaw fid = Except.ok r) := by
  by_cases hk : k = state_key fid nm
  · unfold reconcile_feed
    cases prices fid with
    | none => exact Or.inl rfl
    | some pd =>
      split_ifs with h1
      · cases hr : env.getPriceRaw fid with
        | ok r => exact Or.inr ⟨hk, r, rfl⟩
        | error u => exact Or.inl rfl
      · exact Or.inl rfl
  · exact Or.inl (reconcile_feed_frame now env prices nm states fid hk)

theorem reconcile_feeds_error_kind (now : ℤ) (env : NetworkEnv)
    (prices : String → Option ParsedPrice) (nm : String) (fids : List String) :
    ∀ (states : StateMap) (e : CycleError × StateMap),
      reconcile_feeds now env prices nm states fids = Except.error e →
      e.1 = CycleError.badFeedIdHex := by
  induction fids with
  | nil => intro states e h; exact absurd h (by simp [reconcile_feeds])
  | cons f rest ih =>
    intro states e h
    unfold reconcile_feeds at h
    cases hr : reconcile_feed now env prices nm states f with
    | ok s2 =>
      rw [hr] at h
      exact ih s2 e h
    | error e2 =>
      rw [hr] at h
      injection h with h2
      rw [← h2]
      exact (reconcile_feed_error hr).1

theorem reconcile_feeds_frame (now : ℤ) (env : NetworkEnv)
    (prices : String → Option ParsedPrice) (nm : String) (fids : List String)
    (k : String) :
    ∀ states : StateMap, (∀ fid ∈ fids, k ≠ state_key fid nm) →
      errStates (reconcile_feeds now env prices nm states fids) k = states k := by
  induction fids with
  | nil => intro states _; rfl
  | cons f rest ih =>
    intro states hk
    have hfp := reconcile_feed_frame now env prices nm states f
      (hk f (List.mem_cons_self _ _))
    unfold reconcile_feeds
    cases h : reconcile_feed now env prices nm states f with
    | ok s2 =>
      rw [h] at hfp
      rw [ih s2 (fun fid hf => hk fid (List.mem_cons_of_mem _ hf))]
      exact hfp
    | error e =>
      rw [h] at hfp
      exact hfp

theorem reconcile_feeds_isSome (now : ℤ) (env : NetworkEnv)
    (prices : String → Option ParsedPrice) (nm : String) (fids : List String)
    (k : String) :
    ∀ states : StateMap,
      (errStates (reconcile_feeds now env prices nm states fids) k).isSome =
        (states k).isSome := by
  induction fids with
  | nil => intro states; rfl
  | cons f rest ih =>
    intro states
    have hfp := reconcile_feed_isSome now env prices nm states f k
    unfold reconcile_feeds
    cases h : reconcile_feed now env prices nm states f with
    | ok s2 =>
      rw [h] at hfp
      rw [ih s2]
      exact hfp
    | error e =>
      rw [h] at hfp
      exact hfp

theorem reconcile_feeds_change (now : ℤ) (env : NetworkEnv)
    (prices : String → Option ParsedPrice) (nm : String) (fids : List String)
    (k : String) :
    ∀ states : StateMap,
      errStates (reconcile_feeds now env prices nm states fids) k = states k ∨
      (∃ fid ∈ fids, k = state_key fid nm ∧ ∃ r, env.getPriceRaw fid = Except.ok r) := by
  induction fids with
  | nil => intro states; exact Or.inl rfl
  | cons f rest ih =>
    intro states
    unfold reconcile_feeds
    cases h : reconcile_feed now env prices nm states f with
    | error e =>
      have he := reconcile_feed_error h
      exact Or.inl (by show e.2 k = states k; rw [he.2])
    | ok s2 =>
      have hpair := reconcile_feed_change now env prices nm states f k
      rw [h] at hpair
      simp only [errStates] at hpair
      rcases ih s2 with hu | ⟨fid, hfid, hkey, r, hr⟩
      · rcases hpair with hu1 | ⟨hkey, r, hr⟩
        · exact Or.inl (by rw [hu, hu1])
        · exact Or.inr ⟨f, List.mem_cons_self _ _, hkey, r, hr⟩
      · exact Or.inr ⟨fid, List.mem_cons_of_mem _ hfid, hkey, r, hr⟩

/-! ## Frame and evidence lemmas for the per-network orchestration step -/

theorem network_step_error_kind {cenv : CycleEnv} {prices : String → Option ParsedPrice}
    {plan : String → List String} {states : StateMap} {network : NetworkConfig}
    {e : CycleError × StateMap}
    (h : network_step cenv prices plan states network = Except.error e) :
    e.1 = CycleError.badFeedIdHex ∨ e.1 = CycleError.badRpcUrl ∨
      e.1 = CycleError.badAddress := by
  unfold network_step at h
  split_ifs at h with h0 h1 h2
  · cases hu : update_feeds_on_network (cenv.net network.name) (plan network.name) with
    | error u => rw [hu] at h; exact absurd h (by simp)
    | ok u =>
      rw [hu] at h
      exact Or.inl (reconcile_feeds_error_kind _ _ _ _ _ _ _ h)
  · cases hu : update_feeds_on_network (cenv.net network.name) (plan network.name) with
    | error u => rw [hu] at h; exact absurd h (by simp)
    | ok u =>
      rw [hu] at h
      injection h with h3
      rw [← h3]
      exact Or.inr (Or.inr rfl)
  · cases hu : update_feeds_on_network (cenv.net network.name) (plan network.name) with
    | error u => rw [hu] at h; exact absurd h (by simp)
    | ok u =>
      rw [hu] at h
      injection h with h3
      rw [← h3]
      exact Or.inr (Or.inl rfl)

theorem network_step_frame (cenv : CycleEnv) (prices : String → Option ParsedPrice)
    (plan : String → List String) (states : StateMap) (network : NetworkConfig)
    {k : String} (hk : ∀ fid, k ≠ state_key fid network.name) :
    errStates (network_step cenv prices plan states network) k = states k := by
  unfold network_step
  split_ifs with h0 h1 h2
  · rfl
  · cases update_feeds_on_network (cenv.net network.name) (plan network.name) with
    | error u => rfl
    | ok u =>
      exact reconcile_feeds_frame cenv.now _ prices network.name (plan network.name) k states
        (fun fid _ => hk fid)
  · cases update_feeds_on_network (cenv.net network.name) (plan network.name) with
    | error u => rfl
    | ok u => rfl
  · cases update_feeds_on_network (cenv.net network.name) (plan network.name) with
    | error u => rfl
    | ok u => rfl

theorem network_step_isSome (cenv : CycleEnv) (prices : String → Option ParsedPrice)
    (plan : String → List String) (states : StateMap) (network : NetworkConfig)
    (k : String) :
    (errStates (network_step cenv prices plan states network) k).isSome =
      (states k).isSome := by
  unfold network_step
  split_ifs with h0 h1 h2
  · rfl
  · cases update_feeds_on_network (cenv.net network.name) (plan network.name) with
    | error u => rfl
    | ok u =>
      exact reconcile_feeds_isSome cenv.now _ prices network.name (plan network.name) k states
  · cases update_feeds_on_network (cenv.net network.name) (plan network.name) with
    | error u => rfl
    | ok u => rfl
  · cases update_feeds_on_network (cenv.net network.name) (plan network.name) with
    | error u => rfl
    | ok u => rfl

theorem network_step_change (cenv : CycleEnv) (prices : String → Option ParsedPrice)
    (plan : String → List String) (states : StateMap) (network : NetworkConfig)
    (k : String) :
    errStates (network_step cenv prices plan states network) k = states k ∨
    (∃ fid ∈ plan network.name, k = state_key fid network.name ∧
      update_feeds_on_network (cenv.net network.name) (plan network.name) = Except.ok () ∧
      ∃ r, (cenv.net network.name).getPriceRaw fid = Except.ok r) := by
  unfold network_step
  split_ifs with h0 h1 h2
  · exact Or.inl rfl
  · cases hu : update_feeds_on_network (cenv.net network.name) (plan network.name) with
    | error u => exact Or.inl rfl
    | ok u =>
      rcases reconcile_feeds_change cenv.now _ prices network.name (plan network.name) k
        states with hun | ⟨fid, hfid, hkey, r, hr⟩
      · exact Or.inl hun
      · cases u
        exact Or.inr ⟨fid, hfid, hkey, rfl, r, hr⟩
  · cases update_feeds_on_network (cenv.net network.name) (plan network.name) with
    | error u => exact Or.inl rfl
    | ok u => exact Or.inl rfl
  · cases update_feeds_on_network (cenv.net network.name) (plan network.name) with
    | error u => exact Or.inl rfl
    | ok u => exact Or.inl rfl

/-! ## Frame and evidence lemmas for the network loop -/

theorem run_networks_error_kind (cenv : CycleEnv) (prices : String → Option ParsedPrice)
    (plan : String → List String) (nets : List NetworkConfig) :
    ∀ (states : StateMap) (e : CycleError × StateMap),
      run_networks cenv prices plan states nets = Except.error e →
      e.1 = CycleError.badFeedIdHex ∨ e.1 = CycleError.badRpcUrl ∨
        e.1 = CycleError.badAddress := by
  induction nets with
  | nil => intro states e h; exact absurd h (by simp [run_networks])
  | cons nw rest ih =>
    intro states e h
    unfold run_networks at h
    cases hs : network_step cenv prices plan states nw with
    | ok s2 =>
      rw [hs] at h
      exact ih s2 e h
    | error e2 =>
      rw [hs] at h
      injection h with h2
      rw [← h2]
      exact network_step_error_kind hs

theorem run_networks_frame (cenv : CycleEnv) (prices : String → Option ParsedPrice)
    (plan : String → List String) (nets : List NetworkConfig) (k : String) :
    ∀ states : StateMap, (∀ nw ∈ nets, ∀ fid, k ≠ state_key fid nw.name) →
      errStates (run_networks cenv prices plan states nets) k = states k := by
  induction nets with
  | nil => intro states _; rfl
  | cons nw rest ih =>
    intro states hk
    have hfp := network_step_frame cenv prices plan states nw
      (fun fid => hk nw (List.mem_cons_self _ _) fid)
    unfold run_networks
    cases h : network_step cenv prices plan states nw with
    | ok s2 =>
      rw [h] at hfp
      rw [ih s2 (fun m hm fid => hk m (List.mem_cons_of_mem _ hm) fid)]
      exact hfp
    | error e =>
      rw [h] at hfp
      exact hfp

theorem run_networks_isSome (cenv : CycleEnv) (prices : String → Option ParsedPrice)
    (plan : String → List String) (nets : List NetworkConfig) (k : String) :
    ∀ states : StateMap,
      (errStates (run_networks cenv prices plan states nets) k).isSome =
        (states k).isSome := by
  induction nets with
  | nil => intro states; rfl
  | cons nw rest ih =>
    intro states
    have hfp := network_step_isSome cenv prices plan states nw k
    unfold run_networks
    cases h : network_step cenv prices plan states nw with
    | ok s2 =>
      rw [h] at hfp
      rw [ih s2]
      exact hfp
    | error e =>
      rw [h] at hfp
      exact hfp

theorem run_networks_change (cenv : CycleEnv) (prices : String → Option ParsedPrice)
    (plan : String → List String) (nets : List NetworkConfig) (k : String) :
    ∀ states : StateMap,
      errStates (run_networks cenv prices plan states nets) k = states k ∨
      (∃ nw ∈ nets, ∃ fid ∈ plan nw.name, k = state_key fid nw.name ∧
        update_feeds_on_network (cenv.net nw.name) (plan nw.name) = Except.ok () ∧
        ∃ r, (cenv.net nw.name).getPriceRaw fid = Except.ok r) := by
  induction nets with
  | nil => intro states; exact Or.inl rfl
  | cons nw rest ih =>
    intro states
    unfold run_networks
    cases h : network_step cenv prices plan states nw with
    | error e =>
      have he := network_step_change cenv prices plan states nw k
      rw [h] at he
      rcases he with hu | ⟨fid, hfid, hkey, hupd, r, hr⟩
      · exact Or.inl hu
      · exact Or.inr ⟨nw, List.mem_cons_self _ _, fid, hfid, hkey, hupd, r, hr⟩
    | ok s2 =>
      have hstep := network_step_change cenv prices plan states nw k
      rw [h] at hstep
      simp only [errStates] at hstep
      rcases ih s2 with hu2 | ⟨nw2, hn2, fid2, hf2, hk2, hupd2, r2, hr2⟩
      · rcases hstep with hu1 | ⟨fid, hfid, hkey, hupd, r, hr⟩
        · exact Or.inl (by rw [hu2, hu1])
        · exact Or.inr ⟨nw, List.mem_cons_self _ _, fid, hfid, hkey, hupd, r, hr⟩
      · exact Or.inr ⟨nw2, List.mem_cons_of_mem _ hn2, fid2, hf2, hk2, hupd2, r2, hr2⟩

/-! ## Lemmas about the decision phase -/

theorem decide_pair_ok (now : ℤ) (states : StateMap) (prices : String → Option ParsedPrice)
    (network : NetworkConfig) (feed : FeedConfig)
    (h : network.name ∈ feed.networks →
      (states (state_key feed.price_feed_id network.name)).isSome = true) :
    ∃ d, decide_pair now states prices network feed = Except.ok d := by
  unfold decide_pair
  split_ifs with h1
  · cases prices feed.price_feed_id with
    | none => exact ⟨_, rfl⟩
    | some pd =>
      cases hst : states (state_key feed.price_feed_id network.name) with
      | none =>
        have := h h1
        rw [hst] at this
        exact absurd this (by simp)
      | some st => exact ⟨_, rfl⟩
  · exact ⟨_, rfl⟩

theorem decide_feeds_ok (now : ℤ) (states : StateMap) (prices : String → Option ParsedPrice)
    (network : NetworkConfig) (feeds : List FeedConfig)
    (h : ∀ feed ∈ feeds, network.name ∈ feed.networks →
      (states (state_key feed.price_feed_id network.name)).isSome = true) :
    ∃ ds, decide_feeds now states prices network feeds = Except.ok ds := by
  induction feeds with
  | nil => exact ⟨[], rfl⟩
  | cons feed rest ih =>
    obtain ⟨d, hd⟩ := decide_pair_ok now states prices network feed
      (h feed (List.mem_cons_self _ _))
    obtain ⟨ds, hds⟩ := ih (fun f hf => h f (List.mem_cons_of_mem _ hf))
    unfold decide_feeds
    rw [hd, hds]
    cases d with
    | some dec => exact ⟨_, rfl⟩
    | none => exact ⟨_, rfl⟩

theorem decide_all_ok (now : ℤ) (states : StateMap) (prices : String → Option ParsedPrice)
    (feeds : List FeedConfig) (nets : List NetworkConfig)
    (h : ∀ feed ∈ feeds, ∀ nw ∈ nets, nw.name ∈ feed.networks →
      (states (state_key feed.price_feed_id nw.name)).isSome = true) :
    ∃ ds, decide_all now states prices feeds nets = Except.ok ds := by
  induction nets with
  | nil => exact ⟨[], rfl⟩
  | cons nw rest ih =>
    obtain ⟨ds, hds⟩ := decide_feeds_ok now states prices nw feeds
      (fun f hf => h f hf nw (List.mem_cons_self _ _))
    obtain ⟨ds2, hds2⟩ := ih (fun f hf m hm => h f hf m (List.mem_cons_of_mem _ hm))
    unfold decide_all
    rw [hds, hds2]
    exact ⟨_, rfl⟩

/-! ## Cycle-level frame lemmas -/

theorem update_cycle_isSome (cfg : Config) (states : StateMap) (cenv : CycleEnv)
    (k : String) :
    ((update_cycle cfg states cenv).2 k).isSome = (states k).isSome := by
  unfold update_cycle
  cases cenv.snapshot with
  | error u => rfl
  | ok parsed =>
    dsimp only
    cases decide_all cenv.now states (buildPrices parsed) cfg.feeds cfg.networks with
    | error e => rfl
    | ok ds =>
      dsimp only
      have hrn := run_networks_isSome cenv (buildPrices parsed) (planOf ds) cfg.networks k
        states
      cases h : run_networks cenv (buildPrices parsed) (planOf ds) states cfg.networks with
      | ok s2 =>
        rw [h] at hrn
        exact hrn
      | error e =>
        obtain ⟨e1, s2⟩ := e
        rw [h] at hrn
        exact hrn

theorem update_cycle_change (cfg : Config) (states : StateMap) (cenv : CycleEnv)
    (k : String) :
    (update_cycle cfg states cenv).2 k = states k ∨
    (∃ parsed, cenv.snapshot = Except.ok parsed ∧
     ∃ ds, decide_all cenv.now states (buildPrices parsed) cfg.feeds cfg.networks =
        Except.ok ds ∧
     ∃ nw ∈ cfg.networks, ∃ fid ∈ planOf ds nw.name, k = state_key fid nw.name ∧
       update_feeds_on_network (cenv.net nw.name) (planOf ds nw.name) = Except.ok () ∧
       ∃ r, (cenv.net nw.name).getPriceRaw fid = Except.ok r) := by
  unfold update_cycle
  cases hsnap : cenv.snapshot with
  | error u => exact Or.inl rfl
  | ok parsed =>
    dsimp only
    cases hda : decide_all cenv.now states (buildPrices parsed) cfg.feeds cfg.networks with
    | error e => exact Or.inl rfl
    | ok ds =>
      dsimp only
      have hrn := run_networks_change cenv (buildPrices parsed) (planOf ds) cfg.networks k
        states
      cases h : run_networks cenv (buildPrices parsed) (planOf ds) states cfg.networks with
      | ok s2 =>
        rw [h] at hrn
        simp only [errStates] at hrn
        rcases hrn with hu | ev
        · exact Or.inl hu
        · exact Or.inr ⟨parsed, rfl, ds, hda, ev⟩
      | error e =>
        obtain ⟨e1, s2⟩ := e
        rw [h] at hrn
        simp only [errStates] at hrn
        rcases hrn with hu | ev
        · exact Or.inl hu
        · exact Or.inr ⟨parsed, rfl, ds, hda, ev⟩

/-! ## C4: snapshot fetch failure aborts the whole cycle -/

/-- C4: if the per-cycle snapshot fetch fails, update_cycle returns the
snapshot-fetch error immediately with the feed-state map untouched (no
decision is evaluated, no state is mutated), and the run loop simply
proceeds to the next tick from the same state. -/
theorem c4_snapshot_failure_aborts_cycle (cfg : Config) (states : StateMap)
    (cenv : CycleEnv) (rest : List CycleEnv)
    (hsnap : cenv.snapshot = Except.error ()) :
    update_cycle cfg states cenv = (Except.error CycleError.snapshotFetch, states) ∧
    run_steps cfg states (cenv :: rest) = run_steps cfg states rest := by
  have h1 : update_cycle cfg states cenv =
      (Except.error CycleError.snapshotFetch, states) := by
    unfold update_cycle
    rw [hsnap]
  refine ⟨h1, ?_⟩
  show run_steps cfg (update_cycle cfg states cenv).2 rest = _
  rw [h1]

def failSnapCycleEnv : CycleEnv :=
  { snapshot := Except.error (), now := 0, net := fun _ => okEnv }

/-- C4 witness: the abort theorem applied to a concrete failing fetch. -/
theorem c4_witness :
    update_cycle cfg1 (PythUpdater.new cfg1 0) failSnapCycleEnv =
      (Except.error CycleError.snapshotFetch, PythUpdater.new cfg1 0) ∧
    run_steps cfg1 (PythUpdater.new cfg1 0) [failSnapCycleEnv] =
      run_steps cfg1 (PythUpdater.new cfg1 0) [] :=
  c4_snapshot_failure_aborts_cycle cfg1 (PythUpdater.new cfg1 0) failSnapCycleEnv [] rfl

/-! ## C9: feed-state lookups during a cycle cannot panic -/

/-- C9: every declared (feed, network) pair has an entry from
construction onward — PythUpdater::new creates them all, and neither the
seeding pass nor an update cycle ever adds or removes a key — and under
that domain invariant the cycle's `feed_states.get(..).unwrap()` can
never hit an absent key (the cycle never aborts with missingState). -/
theorem c9_state_lookup_never_panics (cfg : Config) (now0 : ℤ) (states : StateMap)
    (net : String → NetworkEnv) (cenv : CycleEnv) (k : String)
    (hdom : ∀ feed ∈ cfg.feeds, ∀ nw ∈ cfg.networks, nw.name ∈ feed.networks →
      (states (state_key feed.price_feed_id nw.name)).isSome = true) :
    (∀ feed ∈ cfg.feeds, ∀ nm ∈ feed.networks,
      ((PythUpdater.new cfg now0) (state_key feed.price_feed_id nm)).isSome = true) ∧
    ((init_feed_states cfg net now0 states).2 k).isSome = (states k).isSome ∧
    ((update_cycle cfg states cenv).2 k).isSome = (states k).isSome ∧
    (update_cycle cfg states cenv).1 ≠ Except.error CycleError.missingState := by
  refine ⟨fun feed hf nm hn => new_declared cfg now0 hf hn, ?_, update_cycle_isSome cfg states cenv k, ?_⟩
  · rw [init_feed_states_eq]
    exact init_networks_isSome net now0 cfg.feeds cfg.networks k states
  · unfold update_cycle
    cases cenv.snapshot with
    | error u => simp
    | ok parsed =>
      dsimp only
      obtain ⟨ds, hds⟩ := decide_all_ok cenv.now states (buildPrices parsed) cfg.feeds
        cfg.networks hdom
      rw [hds]
      dsimp only
      cases h : run_networks cenv (buildPrices parsed) (planOf ds) states cfg.networks with
      | ok s2 => simp
      | error e =>
        obtain ⟨e1, s2⟩ := e
        have hkind := run_networks_error_kind cenv (buildPrices parsed) (planOf ds)
          cfg.networks states (e1, s2) h
        dsimp only
        intro hcon
        injection hcon with hcon2
        rcases hkind with h1 | h1 | h1 <;> rw [hcon2] at h1 <;> exact absurd h1 (by simp)

def okCycleEnv : CycleEnv :=
  { snapshot := Except.ok [{ id := "0x" ++ feedId64, price := { price := 100, expo := 0 } }]
    now := 5, net := fun _ => okEnv }

/-- C9 witness: the no-panic theorem applied to the concrete one-feed
one-network configuration and a successful snapshot. -/
theorem c9_witness :
    (∀ feed ∈ cfg1.feeds, ∀ nm ∈ feed.networks,
      ((PythUpdater.new cfg1 0) (state_key feed.price_feed_id nm)).isSome = true) ∧
    ((init_feed_states cfg1 (fun _ => okEnv) 0 (PythUpdater.new cfg1 0)).2
        (state_key feedId64 "net")).isSome =
      ((PythUpdater.new cfg1 0) (state_key feedId64 "net")).isSome ∧
    ((update_cycle cfg1 (PythUpdater.new cfg1 0) okCycleEnv).2
        (state_key feedId64 "net")).isSome =
      ((PythUpdater.new cfg1 0) (state_key feedId64 "net")).isSome ∧
    (update_cycle cfg1 (PythUpdater.new cfg1 0) okCycleEnv).1 ≠
      Except.error CycleError.missingState :=
  c9_state_lookup_never_panics cfg1 0 (PythUpdater.new cfg1 0) (fun _ => okEnv) okCycleEnv
    (state_key feedId64 "net") (by decide)

/-! ## C8: feed-state lifecycle and mutation discipline -/

/-- C8: FeedState entries are created at construction for every declared
(feed, network) pair; neither seeding nor a cycle creates or destroys an
entry; and whenever a cycle changes the entry at some key, that key
belongs to a feed flagged by the decision engine on some configured
network whose orchestration succeeded (update_feeds_on_network returned
Ok — i.e. the receipt was confirmed) and whose post-submission on-chain
re-read succeeded: the decision phase alone never mutates state and no
mutation happens at submission time before confirmation. -/
theorem c8_mutation_only_after_confirmation (cfg : Config) (now0 : ℤ) (states : StateMap)
    (net : String → NetworkEnv) (cenv : CycleEnv) (k : String) :
    (∀ feed ∈ cfg.feeds, ∀ nm ∈ feed.networks,
      ((PythUpdater.new cfg now0) (state_key feed.price_feed_id nm)).isSome = true) ∧
    ((init_feed_states cfg net now0 states).2 k).isSome = (states k).isSome ∧
    ((update_cycle cfg states cenv).2 k).isSome = (states k).isSome ∧
    ((update_cycle cfg states cenv).2 k ≠ states k →
      ∃ parsed, cenv.snapshot = Except.ok parsed ∧
      ∃ ds, decide_all cenv.now states (buildPrices parsed) cfg.feeds cfg.networks =
        Except.ok ds ∧
      ∃ nw ∈ cfg.networks, ∃ fid ∈ planOf ds nw.name, k = state_key fid nw.name ∧
        update_feeds_on_network (cenv.net nw.name) (planOf ds nw.name) = Except.ok () ∧
        ∃ r, (cenv.net nw.name).getPriceRaw fid = Except.ok r) := by
  refine ⟨fun feed hf nm hn => new_declared cfg now0 hf hn, ?_,
    update_cycle_isSome cfg states cenv k, ?_⟩
  · rw [init_feed_states_eq]
    exact init_networks_isSome net now0 cfg.feeds cfg.networks k states
  · intro hne
    rcases update_cycle_change cfg states cenv k with hu | ev
    · exact absurd hu hne
    · exact ev

/-- C8 witness: the mutation-discipline theorem applied to a concrete
cycle in which the flagged pair's entry does change, yielding the
orchestrator-commit evidence. -/
theorem c8_witness :
    (∀ feed ∈ cfg1.feeds, ∀ nm ∈ feed.networks,
      ((PythUpdater.new cfg1 0) (state_key feed.price_feed_id nm)).isSome = true) ∧
    ((init_feed_states cfg1 (fun _ => okEnv) 0 (PythUpdater.new cfg1 0)).2
        (state_key feedId64 "net")).isSome =
      ((PythUpdater.new cfg1 0) (state_key feedId64 "net")).isSome ∧
    ((update_cycle cfg1 (PythUpdater.new cfg1 0) okCycleEnv).2
        (state_key feedId64 "net")).isSome =
      ((PythUpdater.new cfg1 0) (state_key feedId64 "net")).isSome ∧
    (∃ parsed, okCycleEnv.snapshot = Except.ok parsed ∧
     ∃ ds, decide_all okCycleEnv.now (PythUpdater.new cfg1 0) (buildPrices parsed)
        cfg1.feeds cfg1.networks = Except.ok ds ∧
     ∃ nw ∈ cfg1.networks, ∃ fid ∈ planOf ds nw.name,
       state_key feedId64 "net" = state_key fid nw.name ∧
       update_feeds_on_network (okCycleEnv.net nw.name) (planOf ds nw.name) =
         Except.ok () ∧
       ∃ r, (okCycleEnv.net nw.name).getPriceRaw fid = Except.ok r) := by
  obtain ⟨a, b, c, d⟩ := c8_mutation_only_after_confirmation cfg1 0 (PythUpdater.new cfg1 0)
    (fun _ => okEnv) okCycleEnv (state_key feedId64 "net")
  refine ⟨a, b, c, d ?_⟩
  intro hcon
  exact absurd (congrArg (Option.map FeedState.last_on_chain_update) hcon) (by decide)

/-! ## C2: what reconciliation commits -/

/-- C2 counterexample: in a cycle whose snapshot quotes 100 while the
post-submission on-chain re-read reports price 200 (published at second
1000), the committed entry holds price 100 — the decision-snapshot value,
not the re-read on-chain value; only the publish time comes from the
re-read. -/
theorem c2_counterexample :
    (update_cycle cfg1 (PythUpdater.new cfg1 0) okCycleEnv).2 (state_key feedId64 "net") =
      some { last_price :=
               parse_price { id := "0x" ++ feedId64, price := { price := 100, expo := 0 } }
             last_on_chain_update := 1000 } ∧
    parse_price { id := "0x" ++ feedId64, price := { price := 100, expo := 0 } } = 100 ∧
    (okCycleEnv.net "net").getPriceRaw feedId64 =
      Except.ok { price := 200, conf := 0, expo := 0, publishTime := 1000 } ∧
    (200 : ℚ) * (10 : ℚ) ^ (0 : ℤ) = 200 ∧
    (100 : ℚ) ≠ 200 := by
  refine ⟨by rfl, ?_, rfl, ?_, by norm_num⟩
  · norm_num [parse_price]
  · norm_num

/-- C2 (amended): for a flagged feed whose post-submission re-read
succeeds, the committed Feed State Store entry carries the price parsed
from the cycle's decision snapshot together with the publish time from
the on-chain re-read — only the publish time is taken from the re-read,
the price is the snapshot's. -/
theorem c2_reconcile_commits_snapshot_price (now : ℤ) (env : NetworkEnv)
    (prices : String → Option ParsedPrice) (nm : String) (states : StateMap)
    (f : String) (pd : ParsedPrice) (r : OnChainPrice)
    (hpd : prices f = some pd) (hhex : feedIdOk f = true)
    (hread : env.getPriceRaw f = Except.ok r)
    (hpresent : (states (state_key f nm)).isSome = true) :
    reconcile_feed now env prices nm states f =
      Except.ok (updateState states (state_key f nm)
        { last_price := parse_price pd
          last_on_chain_update := publishDatetimeRecon r.publishTime now }) ∧
    updateState states (state_key f nm)
        { last_price := parse_price pd
          last_on_chain_update := publishDatetimeRecon r.publishTime now }
        (state_key f nm) =
      some { last_price := parse_price pd
             last_on_chain_update := publishDatetimeRecon r.publishTime now } := by
  constructor
  · simp only [reconcile_feed, hpd, hhex, hread, if_true]
  · rw [updateState_self]
    obtain ⟨st, hst⟩ := Option.isSome_iff_exists.mp hpresent
    rw [hst]
    rfl

/-- C2 witness: the amended commit theorem applied at the concrete
snapshot entry (price 100e0) and on-chain re-read (price 200e0,
publish time 1000). -/
theorem c2_witness :
    reconcile_feed 5 okEnv
        (buildPrices [{ id := "0x" ++ feedId64, price := { price := 100, expo := 0 } }])
        "net" (PythUpdater.new cfg1 0) feedId64 =
      Except.ok (updateState (PythUpdater.new cfg1 0) (state_key feedId64 "net")
        { last_price :=
            parse_price { id := "0x" ++ feedId64, price := { price := 100, expo := 0 } }
          last_on_chain_update :=
            publishDatetimeRecon
              (OnChainPrice.publishTime { price := 200, conf := 0, expo := 0, publishTime := 1000 }) 5 }) ∧
    updateState (PythUpdater.new cfg1 0) (state_key feedId64 "net")
        { last_price :=
            parse_price { id := "0x" ++ feedId64, price := { price := 100, expo := 0 } }
          last_on_chain_update :=
            publishDatetimeRecon
              (OnChainPrice.publishTime { price := 200, conf := 0, expo := 0, publishTime := 1000 }) 5 }
        (state_key feedId64 "net") =
      some { last_price :=
               parse_price { id := "0x" ++ feedId64, price := { price := 100, expo := 0 } }
             last_on_chain_update :=
               publishDatetimeRecon
                 (OnChainPrice.publishTime { price := 200, conf := 0, expo := 0, publishTime := 1000 }) 5 } :=
  c2_reconcile_commits_snapshot_price 5 okEnv
    (buildPrices [{ id := "0x" ++ feedId64, price := { price := 100, expo := 0 } }])
    "net" (PythUpdater.new cfg1 0) feedId64
    { id := "0x" ++ feedId64, price := { price := 100, expo := 0 } }
    { price := 200, conf := 0, expo := 0, publishTime := 1000 }
    rfl (by decide) rfl (by decide)

/-! ## Structure of the decision list (C5) -/

theorem decide_pair_some {now : ℤ} {states : StateMap} {prices : String → Option ParsedPrice}
    {network : NetworkConfig} {feed : FeedConfig} {d : Decision}
    (h : decide_pair now states prices network feed = Except.ok (some d)) :
    d.feed_id = feed.price_feed_id ∧ d.network = network.name ∧
    network.name ∈ feed.networks ∧
    ∃ pd, prices feed.price_feed_id = some pd ∧ d.price = parse_price pd := by
  unfold decide_pair at h
  split_ifs at h with h1
  · cases hp : prices feed.price_feed_id with
    | none => rw [hp] at h; exact absurd h (by simp)
    | some pd =>
      rw [hp] at h
      cases hst : states (state_key feed.price_feed_id network.name) with
      | none => rw [hst] at h; exact absurd h (by simp)
      | some st =>
        rw [hst] at h
        injection h with h2
        injection h2 with h3
        rw [← h3]
        exact ⟨rfl, rfl, h1, pd, rfl, rfl⟩
  · exact absurd h (by simp)

theorem decide_feeds_mem (now : ℤ) (states : StateMap) (prices : String → Option ParsedPrice)
    (network : NetworkConfig) (feeds : List FeedConfig) :
    ∀ {ds : List Decision}, decide_feeds now states prices network feeds = Except.ok ds →
    ∀ d ∈ ds, ∃ feed ∈ feeds, d.feed_id = feed.price_feed_id ∧ d.network = network.name ∧
      network.name ∈ feed.networks ∧
      ∃ pd, prices feed.price_feed_id = some pd ∧ d.price = parse_price pd := by
  induction feeds with
  | nil =>
    intro ds h d hd
    unfold decide_feeds at h
    injection h with h2
    rw [← h2] at hd
    exact absurd hd (List.not_mem_nil _)
  | cons feed rest ih =>
    intro ds h d hd
    unfold decide_feeds at h
    cases hp : decide_pair now states prices network feed with
    | error e => rw [hp] at h; exact absurd h (by simp)
    | ok dopt =>
      rw [hp] at h
      cases hr : decide_feeds now states prices network rest with
      | error e => rw [hr] at h; exact absurd h (by simp)
      | ok ds2 =>
        rw [hr] at h
        cases dopt with
        | some dec =>
          injection h with h2
          rw [← h2] at hd
          rcases List.mem_cons.mp hd with rfl | hd2
          · obtain ⟨ha, hb, hc, pd, hpd, hpr⟩ := decide_pair_some hp
            exact ⟨feed, List.mem_cons_self _ _, ha, hb, hc, pd, hpd, hpr⟩
          · obtain ⟨feed2, hf2, rest2⟩ := ih hr d hd2
            exact ⟨feed2, List.mem_cons_of_mem _ hf2, rest2⟩
        | none =>
          injection h with h2
          rw [← h2] at hd
          obtain ⟨feed2, hf2, rest2⟩ := ih hr d hd
          exact ⟨feed2, List.mem_cons_of_mem _ hf2, rest2⟩

theorem decide_feeds_ids (now : ℤ) (states : StateMap) (prices : String → Option ParsedPrice)
    (network : NetworkConfig) (feeds : List FeedConfig) :
    ∀ {ds : List Decision}, decide_feeds now states prices network feeds = Except.ok ds →
      (ds.map Decision.feed_id).Sublist (feeds.map FeedConfig.price_feed_id) := by
  induction feeds with
  | nil =>
    intro ds h
    unfold decide_feeds at h
    injection h with h2
    rw [← h2]
    exact List.Sublist.refl _
  | cons feed rest ih =>
    intro ds h
    unfold decide_feeds at h
    cases hp : decide_pair now states prices network feed with
    | error e => rw [hp] at h; exact absurd h (by simp)
    | ok dopt =>
      rw [hp] at h
      cases hr : decide_feeds now states prices network rest with
      | error e => rw [hr] at h; exact absurd h (by simp)
      | ok ds2 =>
        rw [hr] at h
        cases dopt with
        | some dec =>
          injection h with h2
          rw [← h2]
          rw [List.map_cons, List.map_cons]
          rw [(decide_pair_some hp).1]
          exact List.Sublist.cons₂ _ (ih hr)
        | none =>
          injection h with h2
          rw [← h2]
          rw [List.map_cons]
          exact List.Sublist.cons _ (ih hr)

theorem decide_all_append (now : ℤ) (states : StateMap) (prices : String → Option ParsedPrice)
    (feeds : List FeedConfig) (nw : NetworkConfig) (rest : List NetworkConfig)
    {ds : List Decision}
    (h : decide_all now states prices feeds (nw :: rest) = Except.ok ds) :
    ∃ ds1 ds2, decide_feeds now states prices nw feeds = Except.ok ds1 ∧
      decide_all now states prices feeds rest = Except.ok ds2 ∧ ds = ds1 ++ ds2 := by
  unfold decide_all at h
  cases h1 : decide_feeds now states prices nw feeds with
  | error e => rw [h1] at h; exact absurd h (by simp)
  | ok ds1 =>
    rw [h1] at h
    cases h2 : decide_all now states prices feeds rest with
    | error e => rw [h2] at h; exact absurd h (by simp)
    | ok ds2 =>
      rw [h2] at h
      injection h with h3
      exact ⟨ds1, ds2, rfl, rfl, h3.symm⟩

theorem decide_all_mem (now : ℤ) (states : StateMap) (prices : String → Option ParsedPrice)
    (feeds : List FeedConfig) (nets : List NetworkConfig) :
    ∀ {ds : List Decision}, decide_all now states prices feeds nets = Except.ok ds →
    ∀ d ∈ ds, ∃ nw ∈ nets, d.network = nw.name ∧
      ∃ feed ∈ feeds, d.feed_id = feed.price_feed_id ∧ nw.name ∈ feed.networks ∧
      ∃ pd, prices feed.price_feed_id = some pd ∧ d.price = parse_price pd := by
  induction nets with
  | nil =>
    intro ds h d hd
    unfold decide_all at h
    injection h with h2
    rw [← h2] at hd
    exact absurd hd (List.not_mem_nil _)
  | cons nw rest ih =>
    intro ds h d hd
    obtain ⟨ds1, ds2, h1, h2, rfl⟩ := decide_all_append now states prices feeds nw rest h
    rcases List.mem_append.mp hd with hd1 | hd2
    · obtain ⟨feed, hf, ha, hb, hc, pd, hpd, hpr⟩ := decide_feeds_mem now states prices nw
        feeds h1 d hd1
      exact ⟨nw, List.mem_cons_self _ _, hb, feed, hf, ha, hc, pd, hpd, hpr⟩
    · obtain ⟨nw2, hn2, rest2⟩ := ih h2 d hd2
      exact ⟨nw2, List.mem_cons_of_mem _ hn2, rest2⟩

theorem decide_all_pairs_nodup (now : ℤ) (states : StateMap)
    (prices : String → Option ParsedPrice) (feeds : List FeedConfig)
    (nets : List NetworkConfig)
    (hfeeds : (feeds.map FeedConfig.price_feed_id).Nodup) :
    ∀ {ds : List Decision}, (nets.map NetworkConfig.name).Nodup →
      decide_all now states prices feeds nets = Except.ok ds →
      (ds.map (fun d => (d.feed_id, d.network))).Nodup := by
  induction nets with
  | nil =>
    intro ds _ h
    unfold decide_all at h
    injection h with h2
    rw [← h2]
    exact List.nodup_nil
  | cons nw rest ih =>
    intro ds hnets h
    obtain ⟨ds1, ds2, h1, h2, rfl⟩ := decide_all_append now states prices feeds nw rest h
    rw [List.map_append, List.nodup_append]
    rw [List.map_cons, List.nodup_cons] at hnets
    refine ⟨?_, ih hnets.2 h2, ?_⟩
    · have hids : (ds1.map Decision.feed_id).Nodup :=
        (decide_feeds_ids now states prices nw feeds h1).nodup hfeeds
      have hmm : (ds1.map (fun d => (d.feed_id, d.network))).map Prod.fst =
          ds1.map Decision.feed_id := by
        rw [List.map_map]
        rfl
      exact List.Nodup.of_map Prod.fst (by rw [hmm]; exact hids)
    · intro p hp1 hp2
      obtain ⟨d1, hd1, hpd1⟩ := List.mem_map.mp hp1
      obtain ⟨d2, hd2, hpd2⟩ := List.mem_map.mp hp2
      have hn1 : d1.network = nw.name :=
        (decide_feeds_mem now states prices nw feeds h1 d1 hd1).choose_spec.2.2.1
      obtain ⟨nw2, hn2mem, hn2, _⟩ := decide_all_mem now states prices feeds rest h2 d2 hd2
      have : d1.network = d2.network := by
        have := hpd1.trans hpd2.symm
        exact congrArg Prod.snd this
      rw [hn1, hn2] at this
      exact hnets.1 (this ▸ List.mem_map.mpr ⟨nw2, hn2mem, rfl⟩)

theorem update_cycle_decisions {cfg : Config} {states : StateMap} {cenv : CycleEnv}
    {parsed : List ParsedPrice} {ds : List Decision}
    (hsnap : cenv.snapshot = Except.ok parsed)
    (hok : (update_cycle cfg states cenv).1 = Except.ok ds) :
    decide_all cenv.now states (buildPrices parsed) cfg.feeds cfg.networks =
      Except.ok ds := by
  unfold update_cycle at hok
  rw [hsnap] at hok
  dsimp only at hok
  cases hda : decide_all cenv.now states (buildPrices parsed) cfg.feeds cfg.networks with
  | error e => rw [hda] at hok; exact absurd hok (by simp)
  | ok ds2 =>
    rw [hda] at hok
    dsimp only at hok
    cases h : run_networks cenv (buildPrices parsed) (planOf ds2) states cfg.networks with
    | ok s2 =>
      rw [h] at hok
      dsimp only at hok
      injection hok with h2
      rw [h2]
    | error e =>
      obtain ⟨e1, s2⟩ := e
      rw [h] at hok
      dsimp only at hok
      exact absurd hok (by simp)

/-! ## C5: one snapshot per cycle, at most one decision per pair -/

/-- C5: in a cycle that completes its decision phase, every decision's
quote is the entry of the single snapshot map built from the one
fetch_prices response of that cycle (all networks evaluate the same
snapshot), every decided pair is a declared (feed, network) pair, and,
when feed ids and network names are free of duplicates, no (feed,
network) pair is decided more than once in the cycle. -/
theorem c5_single_snapshot_at_most_once (cfg : Config) (states : StateMap)
    (cenv : CycleEnv) (parsed : List ParsedPrice) (ds : List Decision)
    (hsnap : cenv.snapshot = Except.ok parsed)
    (hok : (update_cycle cfg states cenv).1 = Except.ok ds)
    (hfeeds : (cfg.feeds.map FeedConfig.price_feed_id).Nodup)
    (hnets : (cfg.networks.map NetworkConfig.name).Nodup) :
    (∀ d ∈ ds, ∃ pd, buildPrices parsed d.feed_id = some pd ∧ d.price = parse_price pd) ∧
    (ds.map (fun d => (d.feed_id, d.network))).Nodup ∧
    (∀ d ∈ ds, ∃ feed ∈ cfg.feeds, ∃ nw ∈ cfg.networks,
      d.feed_id = feed.price_feed_id ∧ d.network = nw.name ∧ nw.name ∈ feed.networks) := by
  have hda := update_cycle_decisions hsnap hok
  refine ⟨?_, decide_all_pairs_nodup cenv.now states (buildPrices parsed) cfg.feeds
    cfg.networks hfeeds hnets hda, ?_⟩
  · intro d hd
    obtain ⟨nw, hnw, hdn, feed, hfd, hfi, hm, pd, hpd, hpr⟩ :=
      decide_all_mem cenv.now states (buildPrices parsed) cfg.feeds cfg.networks hda d hd
    rw [← hfi] at hpd
    exact ⟨pd, hpd, hpr⟩
  · intro d hd
    obtain ⟨nw, hnw, hdn, feed, hfd, hfi, hm, pd, hpd, hpr⟩ :=
      decide_all_mem cenv.now states (buildPrices parsed) cfg.feeds cfg.networks hda d hd
    exact ⟨feed, hfd, nw, hnw, hfi, hdn, hm⟩

/-- The decision list produced by the concrete one-feed one-network cycle. -/
def ds1 : List Decision :=
  [{ feed_id := feedId64, network := "net",
     price := parse_price { id := "0x" ++ feedId64, price := { price := 100, expo := 0 } },
     update := true }]

/-- C5 witness: the single-snapshot theorem applied to the concrete
cycle, whose decision list is ds1. -/
theorem c5_witness :
    (∀ d ∈ ds1, ∃ pd,
      buildPrices [{ id := "0x" ++ feedId64, price := { price := 100, expo := 0 } }]
          d.feed_id = some pd ∧
      d.price = parse_price pd) ∧
    (ds1.map (fun d => (d.feed_id, d.network))).Nodup ∧
    (∀ d ∈ ds1, ∃ feed ∈ cfg1.feeds, ∃ nw ∈ cfg1.networks,
      d.feed_id = feed.price_feed_id ∧ d.network = nw.name ∧ nw.name ∈ feed.networks) :=
  c5_single_snapshot_at_most_once cfg1 (PythUpdater.new cfg1 0) okCycleEnv
    [{ id := "0x" ++ feedId64, price := { price := 100, expo := 0 } }] ds1
    rfl (by rfl) (by decide) (by decide)

/-! ## Isolation of a failing network (C3) -/

theorem network_step_skip (cenv : CycleEnv) (prices : String → Option ParsedPrice)
    (plan : String → List String) (states : StateMap) (nw : NetworkConfig)
    (hfail : ∀ fs, update_feeds_on_network (cenv.net nw.name) fs = Except.error ()) :
    network_step cenv prices plan states nw = Except.ok states := by
  unfold network_step
  split_ifs with h0 h1 h2
  · rfl
  · rw [hfail]
  · rw [hfail]
  · rw [hfail]

theorem network_step_congr (cenv : CycleEnv) (prices : String → Option ParsedPrice)
    (plan plan2 : String → List String) (states : StateMap) (nw : NetworkConfig)
    (h : plan nw.name = plan2 nw.name) :
    network_step cenv prices plan states nw = network_step cenv prices plan2 states nw := by
  unfold network_step
  rw [h]

theorem run_networks_filtered (cenv : CycleEnv) (prices : String → Option ParsedPrice)
    (plan plan2 : String → List String) (nname : String)
    (hagree : ∀ nm, nm ≠ nname → plan nm = plan2 nm)
    (hfailn : ∀ fs, update_feeds_on_network (cenv.net nname) fs = Except.error ()) :
    ∀ (nets : List NetworkConfig) (states : StateMap),
      run_networks cenv prices plan states nets =
        run_networks cenv prices plan2 states (nets.filter (fun m => m.name != nname)) := by
  intro nets
  induction nets with
  | nil => intro states; rfl
  | cons nw rest ih =>
    intro states
    by_cases hname : nw.name = nname
    · have hskip : network_step cenv prices plan states nw = Except.ok states :=
        network_step_skip cenv prices plan states nw (by rw [hname]; exact hfailn)
      have hfilter : (nw :: rest).filter (fun m => m.name != nname) =
          rest.filter (fun m => m.name != nname) := by
        rw [List.filter_cons_of_neg]
        simp [hname]
      rw [hfilter]
      show (match network_step cenv prices plan states nw with
        | Except.ok s2 => run_networks cenv prices plan s2 rest
        | Except.error e => Except.error e) = _
      rw [hskip]
      exact ih states
    · have hcongr := network_step_congr cenv prices plan plan2 states nw (hagree _ hname)
      have hfilter : (nw :: rest).filter (fun m => m.name != nname) =
          nw :: rest.filter (fun m => m.name != nname) := by
        rw [List.filter_cons_of_pos]
        simp [hname]
      rw [hfilter]
      show (match network_step cenv prices plan states nw with
        | Except.ok s2 => run_networks cenv prices plan s2 rest
        | Except.error e => Except.error e) =
        (match network_step cenv prices plan2 states nw with
        | Except.ok s2 => run_networks cenv prices plan2 s2
            (rest.filter (fun m => m.name != nname))
        | Except.error e => Except.error e)
      rw [← hcongr]
      cases network_step cenv prices plan states nw with
      | ok s2 => exact ih s2
      | error e => rfl

theorem decide_all_filter (now : ℤ) (states : StateMap)
    (prices : String → Option ParsedPrice) (feeds : List FeedConfig) (p : String → Bool) :
    ∀ (nets : List NetworkConfig) {ds : List Decision},
      decide_all now states prices feeds nets = Except.ok ds →
      decide_all now states prices feeds (nets.filter (fun m => p m.name)) =
        Except.ok (ds.filter (fun d => p d.network)) := by
  intro nets
  induction nets with
  | nil =>
    intro ds h
    unfold decide_all at h
    injection h with h2
    rw [← h2]
    rfl
  | cons nw rest ih =>
    intro ds h
    obtain ⟨ds1, ds2, h1, h2, rfl⟩ := decide_all_append now states prices feeds nw rest h
    have hall : ∀ d ∈ ds1, d.network = nw.name := by
      intro d hd
      obtain ⟨feed, hf, ha, hb, hrest⟩ := decide_feeds_mem now states prices nw feeds h1 d hd
      exact hb
    rw [List.filter_append]
    by_cases hp : p nw.name = true
    · rw [List.filter_cons_of_pos (by exact hp)]
      unfold decide_all
      rw [h1, ih h2]
      have hkeep : ds1.filter (fun d => p d.network) = ds1 :=
        List.filter_eq_self.mpr (fun d hd => by rw [hall d hd]; exact hp)
      rw [hkeep]
    · rw [List.filter_cons_of_neg (by simpa using hp)]
      have hdrop : ds1.filter (fun d => p d.network) = [] := by
        rw [List.filter_eq_nil_iff]
        intro d hd
        rw [hall d hd]
        simpa using hp
      rw [hdrop, List.nil_append]
      exact ih h2

theorem planOf_filter_ne (ds : List Decision) (nname nm : String) (h : nm ≠ nname) :
    planOf (ds.filter (fun d => d.network != nname)) nm = planOf ds nm := by
  unfold planOf
  rw [List.filter_filter]
  congr 1
  apply List.filter_congr
  intro d _
  by_cases hnet : d.network == nm
  · have hne : (d.network != nname) = true := by
      have : d.network = nm := by simpa using hnet
      simp [bne_iff_ne, this, h]
    rw [hne]
    simp
  · simp only [Bool.not_eq_true] at hnet
    simp [hnet]

/-- C3: if one network's orchestration fails (any of the payload fetch,
fee quote, gas query, submission or receipt steps — anything making
update_feeds_on_network return an error), then (1) that network's keys
are left completely unchanged by the cycle, and (2) the cycle leaves the
feed-state map exactly as the same cycle would with the failing network
removed from the configuration: the other networks' orchestration and
reconciliation are unaffected.  Colon-free network names rule out string
state-key collisions; the domain hypothesis is the construction-time
invariant that every declared pair has an entry. -/
theorem c3_submission_failure_isolated (cfg : Config) (states : StateMap)
    (cenv : CycleEnv) (n : NetworkConfig)
    (hn : n ∈ cfg.networks)
    (hcolon : ∀ m ∈ cfg.networks, ':' ∉ m.name.data)
    (hfail : ∀ fs, update_feeds_on_network (cenv.net n.name) fs = Except.error ())
    (hdom : ∀ feed ∈ cfg.feeds, ∀ nw ∈ cfg.networks, nw.name ∈ feed.networks →
      (states (state_key feed.price_feed_id nw.name)).isSome = true) :
    (∀ f, (update_cycle cfg states cenv).2 (state_key f n.name) =
      states (state_key f n.name)) ∧
    (update_cycle cfg states cenv).2 =
      (update_cycle
        { cfg with networks := cfg.networks.filter (fun m => m.name != n.name) }
        states cenv).2 := by
  constructor
  · intro f
    rcases update_cycle_change cfg states cenv (state_key f n.name) with hu |
      ⟨parsed, hsnap, ds, hda, nw, hnw, fid, hfid, hkey, hupd, r, hr⟩
    · exact hu
    · obtain ⟨_, hname⟩ := state_key_inj (hcolon n hn) (hcolon nw hnw) hkey
      rw [← hname] at hupd
      rw [hfail] at hupd
      exact absurd hupd (by simp)
  · cases hsnap : cenv.snapshot with
    | error u =>
      unfold update_cycle
      rw [hsnap]
    | ok parsed =>
      obtain ⟨ds, hda⟩ := decide_all_ok cenv.now states (buildPrices parsed) cfg.feeds
        cfg.networks hdom
      have hda2 := decide_all_filter cenv.now states (buildPrices parsed) cfg.feeds
        (fun nm => nm != n.name) cfg.networks hda
      have hagree : ∀ nm, nm ≠ n.name →
          planOf ds nm = planOf (ds.filter (fun d => d.network != n.name)) nm :=
        fun nm hne => (planOf_filter_ne ds n.name nm hne).symm
      have hrun := run_networks_filtered cenv (buildPrices parsed) (planOf ds)
        (planOf (ds.filter (fun d => d.network != n.name))) n.name hagree hfail
        cfg.networks states
      unfold update_cycle
      rw [hsnap]
      dsimp only
      rw [hda, hda2]
      dsimp only
      rw [hrun]
      cases run_networks cenv (buildPrices parsed)
          (planOf (List.filter (fun d => d.network != n.name) ds)) states
          (List.filter (fun m => m.name != n.name) cfg.networks) with
      | ok s2 => rfl
      | error e =>
        obtain ⟨e1, s2⟩ := e
        rfl

def netA : NetworkConfig :=
  { name := "a", chain_id := 1, rpc_url := "http", pyth_contract := "0xc",
    private_key := "k", native_feed_id := "ff", block_explorer := "exp" }

def netB : NetworkConfig :=
  { name := "b", chain_id := 2, rpc_url := "http", pyth_contract := "0xd",
    private_key := "k", native_feed_id := "ff", block_explorer := "exp" }

def feedAB : FeedConfig :=
  { price_feed_id := feedId64, symbol := "SYM", deviation_threshold := 1,
    heartbeat_seconds := 3600, networks := ["a", "b"] }

def cfgAB : Config :=
  { networks := [netA, netB], feeds := [feedAB], pyth_hermes_url := "h",
    poll_interval_seconds := 10 }

/-- Like okEnv but the update-payload fetch fails, so the whole
orchestration of that network fails. -/
def failSubmitEnv : NetworkEnv :=
  { okEnv with fetch_update_data := fun _ => Except.error () }

def cycleEnvAB : CycleEnv :=
  { snapshot := Except.ok [{ id := "0x" ++ feedId64, price := { price := 100, expo := 0 } }]
    now := 5
    net := fun nm => if nm = "a" then failSubmitEnv else okEnv }

/-- C3 witness: the isolation theorem applied to a concrete two-network
cycle in which network "a" fails at the update-payload fetch. -/
theorem c3_witness :
    (∀ f, (update_cycle cfgAB (PythUpdater.new cfgAB 0) cycleEnvAB).2
        (state_key f netA.name) =
      (PythUpdater.new cfgAB 0) (state_key f netA.name)) ∧
    (update_cycle cfgAB (PythUpdater.new cfgAB 0) cycleEnvAB).2 =
      (update_cycle
        { cfgAB with networks := cfgAB.networks.filter (fun m => m.name != netA.name) }
        (PythUpdater.new cfgAB 0) cycleEnvAB).2 :=
  c3_submission_failure_isolated cfgAB (PythUpdater.new cfgAB 0) cycleEnvAB netA
    (List.mem_cons_self _ _) (by decide) (fun fs => rfl) (by decide)
